import Mathlib

/-!
# Verification of the CedarJavaFFI typed-wrapper layer (`src/CedarJavaFFI/src/objects.rs`)

Shallow embedding of the JNI boundary layer: each Rust function from
`objects.rs` becomes a Lean function over an explicit model of the managed
runtime (a log of runtime invocations plus an oracle deciding which
invocations the managed runtime fails).  Native Cedar values
(`EntityTypeName`, `EntityId`, `EntityUid`) come from the external
`cedar_policy` crate, which is not part of this repository; they are
modelled from the spec where noted.
-/

/-- The unified conversion-failure representation (spec section 3:
managed-call-failure, string-decode-failure, identity-mismatch,
parse-failure(reason)); `intConversionFailure` stands for the
`TryFromIntError` produced by `usize::try_from` / `isize::try_from` in
`JFormatterConfig::cast`. -/
inductive ConvError where
  | managedCallFailure
  | stringDecodeFailure
  | identityMismatch (expected : String) (actual : String)
  | parseFailure (reason : String)
  | intConversionFailure
deriving DecidableEq, Repr

/-- One invocation of the managed runtime, as recorded in the run log.
`callMethod` is a field-accessor/instance-method invocation;
`newObject`, `newString` and `listNew` are managed-side allocations. -/
inductive JEvent where
  | getClass
  | callMethod (name : String)
  | callStaticMethod (cls : String) (name : String)
  | newObject (cls : String)
  | getStringChars
  | newString
  | listMarshal
  | listAdd
  | listNew
deriving DecidableEq, Repr

/-- Model of a managed-runtime (Java) object reachable from this layer.
Lists crossing this boundary are always lists of strings. -/
inductive JObj where
  | stringObj (s : String)
  | listObj (elems : List String)
  | entityTypeNameObj (ns : List String) (basename : String)
  | entityIdentifierObj (id : String)
  | entityUIDObj (ns : List String) (basename : String) (id : String)
  | policyObj (policy : String) (policyId : String)
  | configObj (lineWidth : Int) (indentWidth : Int)
  | optionalEmptyObj
  | optionalOfObj (o : JObj)
deriving DecidableEq, Repr

/-- The runtime class (fully-qualified, JNI notation) of a managed object. -/
def runtimeClass : JObj → String
  | .stringObj _ => "java/lang/String"
  | .listObj _ => "java/util/ArrayList"
  | .entityTypeNameObj _ _ => "com/cedarpolicy/value/EntityTypeName"
  | .entityIdentifierObj _ => "com/cedarpolicy/value/EntityIdentifier"
  | .entityUIDObj _ _ _ => "com/cedarpolicy/value/EntityUID"
  | .policyObj _ _ => "com/cedarpolicy/model/policy/Policy"
  | .configObj _ _ => "com/cedarpolicy/model/formatter/Config"
  | .optionalEmptyObj => "java/util/Optional"
  | .optionalOfObj _ => "java/util/Optional"

/-- A value returned by a managed-runtime method (`JValueGen`): an object
reference or a primitive `int`. -/
inductive JValue where
  | objectV (o : JObj)
  | intV (i : Int)
deriving DecidableEq, Repr

/-- Oracle deciding which managed-runtime invocations raise: invocation
number `n` of a run fails iff `fails n` is `true`. -/
structure EnvOracle where
  fails : Nat → Bool

/-- The managed runtime that never fails a call. -/
def cleanEnv : EnvOracle := ⟨fun _ => false⟩

/-- Outcome of a Rust-side computation: normal return, `Err` return, or a
panic (`unwrap`/`expect` on an `Err`), which terminates instead of
returning. -/
inductive JResult (α : Type) where
  | ok (a : α)
  | err (e : ConvError)
  | aborted (msg : String)
deriving DecidableEq, Repr

/-- Forget the payload of a `JResult` (used to compare outcomes of casts
with different wrapper types). -/
def JResult.toUnit : JResult α → JResult Unit
  | .ok _ => .ok ()
  | .err e => .err e
  | .aborted msg => .aborted msg

/-- A computation against the managed runtime: reads the failure oracle,
threads the invocation log, and returns a `JResult`.  The log is returned
even on failure, so that the invocations performed before an error remain
observable. -/
def JniM (α : Type) : Type := EnvOracle → List JEvent → JResult α × List JEvent

def JniM.pureRes (a : α) : JniM α := fun _ log => (.ok a, log)

def JniM.bindRes (m : JniM α) (f : α → JniM β) : JniM β := fun env log =>
  match m env log with
  | (.ok a, log') => f a env log'
  | (.err e, log') => (.err e, log')
  | (.aborted msg, log') => (.aborted msg, log')

instance : Monad JniM where
  pure := JniM.pureRes
  bind := JniM.bindRes

/-- Return an `Err` (the Rust `?` / early `return Err(...)`). -/
def throwErr (e : ConvError) : JniM α := fun _ log => (.err e, log)

/-- Model of `.unwrap()` / `.expect(msg)`: converts an `Err` outcome into a
panic that terminates instead of returning. -/
def expectOk (m : JniM α) (msg : String) : JniM α := fun env log =>
  match m env log with
  | (.ok a, log') => (.ok a, log')
  | (.err _, log') => (.aborted msg, log')
  | (.aborted m', log') => (.aborted m', log')

/-- Perform one managed-runtime invocation: record it in the log and fail
with `managedCallFailure` when the oracle says this invocation raises. -/
def jniCall (ev : JEvent) : JniM Unit := fun env log =>
  if env.fails log.length then (.err .managedCallFailure, log ++ [ev])
  else (.ok (), log ++ [ev])

/-- Number of field-accessor (instance-method) invocations in a log. -/
def accessorCalls (log : List JEvent) : Nat :=
  (log.filter fun e => match e with | .callMethod _ => true | _ => false).length

/-- Number of managed-side allocations (constructor calls, new strings,
new lists) in a log. -/
def allocations (log : List JEvent) : Nat :=
  (log.filter fun e =>
    match e with
    | .newObject _ => true
    | .newString => true
    | .listNew => true
    | _ => false).length

/-! ## Managed-runtime call surface -/

/-- Managed-side instance-method dispatch: what each object's accessor
methods return. -/
def dispatchMethod (obj : JObj) (name : String) : Option JValue :=
  match obj, name with
  | .entityTypeNameObj ns _, "getNamespace" => some (.objectV (.listObj ns))
  | .entityTypeNameObj _ b, "getBaseName" => some (.objectV (.stringObj b))
  | .entityIdentifierObj i, "getId" => some (.objectV (.stringObj i))
  | .configObj lw _, "getLineWidth" => some (.intV lw)
  | .configObj _ iw, "getIndentWidth" => some (.intV iw)
  | _, _ => none

/-- Model of `env.call_method`: logs the invocation, then returns what the
managed side's method returns (a missing method is a runtime raise). -/
def callMethod (obj : JObj) (name : String) : JniM JValue := do
  jniCall (.callMethod name)
  match dispatchMethod obj name with
  | some v => pure v
  | none => throwErr .managedCallFailure

/-- Managed-side constructor semantics: the object a `new_object` call on
the given class with the given arguments produces. -/
def constructObject (cls : String) (args : List JObj) : Option JObj :=
  match cls, args with
  | "com/cedarpolicy/value/EntityTypeName", [.listObj ns, .stringObj b] =>
      some (.entityTypeNameObj ns b)
  | "com/cedarpolicy/value/EntityIdentifier", [.stringObj s] =>
      some (.entityIdentifierObj s)
  | "com/cedarpolicy/value/EntityUID", [.entityTypeNameObj ns b, .entityIdentifierObj i] =>
      some (.entityUIDObj ns b i)
  | "com/cedarpolicy/model/policy/Policy", [.stringObj p, .stringObj pid] =>
      some (.policyObj p pid)
  | _, _ => none

/-- Model of `env.new_object`: logs the allocation and builds the object. -/
def newObject (cls : String) (args : List JObj) : JniM JObj := do
  jniCall (.newObject cls)
  match constructObject cls args with
  | some o => pure o
  | none => throwErr .managedCallFailure

/-- Model of `env.call_static_method`, covering the two `java.util.Optional`
factories used by this layer. -/
def callStaticMethod (cls : String) (name : String) (args : List JObj) : JniM JValue := do
  jniCall (.callStaticMethod cls name)
  match cls, name, args with
  | "java/util/Optional", "empty", [] => pure (.objectV .optionalEmptyObj)
  | "java/util/Optional", "of", [o] => pure (.objectV (.optionalOfObj o))
  | _, _, _ => throwErr .managedCallFailure

/-- Typed wrapper around a managed string reference (`jni::objects::JString`). -/
structure JStr where
  obj : JObj
deriving DecidableEq, Repr

/-- Model of `env.get_string`: marshal a managed string into a native one. -/
def getString (s : JStr) : JniM String := do
  jniCall .getStringChars
  match s.obj with
  | .stringObj str => pure str
  | _ => throwErr .stringDecodeFailure

/-- Model of `env.new_string`. -/
def newString (s : String) : JniM JStr := do
  jniCall .newString
  pure ⟨.stringObj s⟩

/-- Model of `JValueGen::i()`: extract the primitive `int` of a returned
value. -/
def jvalueInt (v : JValue) : JniM Int :=
  match v with
  | .intV i => pure i
  | .objectV _ => throwErr .stringDecodeFailure

/-- Modelled from the spec: `get_object_ref` from the `utils` module (not
under `src/`) extracts the object reference of a returned value. -/
def get_object_ref (v : JValue) : JniM JObj :=
  match v with
  | .objectV o => pure o
  | .intV _ => throwErr .stringDecodeFailure

/-- Modelled from the spec: `assert_is_class` from the `utils` module (not
under `src/`) — the Cast Protocol's identity check (spec section 4.1): query
the reference's runtime class and fail with `identity-mismatch`, reporting
expected and actual class names, when it differs from the expected one. -/
def assert_is_class (obj : JObj) (expected : String) : JniM Unit := do
  jniCall .getClass
  if runtimeClass obj = expected then pure ()
  else throwErr (.identityMismatch expected (runtimeClass obj))

/-- Typed wrapper around a managed list of strings (`jlist::List`, not under
`src/`; interface from spec section 6). -/
structure JList where
  obj : JObj
deriving DecidableEq, Repr

/-- Modelled from the spec: list marshaling `to_native_sequence` (spec
section 6), the `jlist::jstr_list_to_rust_vec` helper (not under `src/`). -/
def jstr_list_to_rust_vec (l : JList) : JniM (List String) := do
  jniCall .listMarshal
  match l.obj with
  | .listObj xs => pure xs
  | _ => throwErr .stringDecodeFailure

/-- Modelled from the spec: `new_list` (spec section 6), `jlist::List::new`
(not under `src/`). -/
def JList.newList : JniM JList := do
  jniCall .listNew
  pure ⟨.listObj []⟩

/-- Modelled from the spec: `append` (spec section 6), `jlist::List::add`
(not under `src/`); mutation of the managed list is modelled functionally. -/
def JList.add (l : JList) (s : JStr) : JniM JList := do
  jniCall .listAdd
  match l.obj, s.obj with
  | .listObj xs, .stringObj str => pure ⟨.listObj (xs ++ [str])⟩
  | _, _ => throwErr .stringDecodeFailure

/-- Modelled from the spec: `jlist::List::cast_unchecked` (not under
`src/`) wraps a reference as a list without any check. -/
def JList.cast_unchecked (o : JObj) : JniM JList :=
  pure ⟨o⟩

/-! ## Native Cedar values

The native policy engine (`cedar_policy` crate) is an external collaborator
of this repository; its values and parsers are modelled from the spec
(sections 3, 4.3-4.5). -/

/-- Does a string contain the reserved two-colon separator (`s.contains("::")`)? -/
def containsTwoColonsChars : List Char → Bool
  | [] => false
  | [_] => false
  | c₁ :: c₂ :: rest =>
    if c₁ = ':' && c₂ = ':' then true else containsTwoColonsChars (c₂ :: rest)

/-- `s.contains("::")` on Rust strings. -/
def containsTwoColons (s : String) : Bool :=
  containsTwoColonsChars s.data

/-- Prepend a character to the first group of a split. -/
def consHead (c : Char) : List (List Char) → List (List Char)
  | [] => [[c]]
  | g :: gs => (c :: g) :: gs

/-- Split a character sequence on the (greedy, leftmost) two-colon
separator; always returns at least one group. -/
def splitOnColons : List Char → List (List Char)
  | [] => [[]]
  | [c] => [[c]]
  | c₁ :: c₂ :: rest =>
    if c₁ = ':' ∧ c₂ = ':' then [] :: splitOnColons rest
    else consHead c₁ (splitOnColons (c₂ :: rest))

/-- Join groups of characters with the two-colon separator. -/
def joinColons : List (List Char) → List Char
  | [] => []
  | [g] => g
  | g :: gs => g ++ ':' :: ':' :: joinColons gs

/-- `Vec::join("::")`: the canonical joined string form of a component list. -/
def joinComponents (comps : List String) : String :=
  String.mk (joinColons (comps.map String.data))

/-- Is `c` a character allowed to start a Cedar identifier? -/
def isIdentStart (c : Char) : Bool := c.isAlpha || c = '_'

/-- Is `c` a character allowed inside a Cedar identifier? -/
def isIdentChar (c : Char) : Bool := c.isAlpha || c.isDigit || c = '_'

/-- Is a character sequence a valid Cedar identifier? -/
def isValidIdentChars : List Char → Bool
  | [] => false
  | c :: rest => isIdentStart c && rest.all isIdentChar

/-- Native qualified type name (`cedar_policy::EntityTypeName`): namespace
components plus a base name. -/
structure EntityTypeName where
  nsComponents : List String
  basename : String
deriving DecidableEq, Repr

/-- Split a nonempty list into its initial part and its last element. -/
def unsnoc : List α → Option (List α × α)
  | [] => none
  | [a] => some ([], a)
  | a :: rest =>
    (unsnoc rest).map (fun p => (a :: p.1, p.2))

/-- Modelled from the spec: the native type-name parser
(`EntityTypeName::from_str` of the external `cedar_policy` crate) — splits
the source on the reserved two-colon separator and requires every component
to be a valid identifier; the last component is the base name, the rest the
namespace (spec sections 3 and 4.3). -/
def EntityTypeName.fromStr (s : String) : Option EntityTypeName :=
  let comps := splitOnColons s.data
  if comps.all isValidIdentChars then
    match unsnoc comps with
    | some (ini, lastC) => some ⟨ini.map String.mk, String.mk lastC⟩
    | none => none
  else none

/-- The canonical string form of a type name: namespace components then base
name, joined by the two-colon separator (spec section 4.3). -/
def EntityTypeName.toStr (t : EntityTypeName) : String :=
  joinComponents (t.nsComponents ++ [t.basename])

/-- Native entity identifier (`cedar_policy::EntityId`): an arbitrary
string (spec section 3: any string is representable). -/
structure EntityId where
  id : String
deriving DecidableEq, Repr

/-- `EntityId::from_str`: infallible — wraps the raw string as-is. -/
def EntityId.fromStr (s : String) : EntityId := ⟨s⟩

/-- Modelled from the spec: the escaped canonical form of an identifier
(`EntityId::escaped` of the external `cedar_policy` crate) — quote and
backslash characters are escaped (spec sections 3 and 4.4). -/
def escapeChars : List Char → List Char
  | [] => []
  | c :: rest =>
    if c = '"' ∨ c = '\\' then '\\' :: c :: escapeChars rest
    else c :: escapeChars rest

/-- The escaped canonical string form of an identifier. -/
def EntityId.escaped (e : EntityId) : String :=
  String.mk (escapeChars e.id.data)

/-- Native composite entity reference (`cedar_policy::EntityUid`). -/
structure EntityUid where
  ty : EntityTypeName
  eid : EntityId
deriving DecidableEq, Repr

/-- The canonical string form of an entity reference:
`Type::"escaped-id"` (spec section 4.5). -/
def EntityUid.toStr (u : EntityUid) : String :=
  u.ty.toStr ++ "::\"" ++ u.eid.escaped ++ "\""

/-- Split a character sequence at its first quote character. -/
def splitAtFirstQuote : List Char → Option (List Char × List Char)
  | [] => none
  | c :: rest =>
    if c = '"' then some ([], rest)
    else (splitAtFirstQuote rest).map (fun p => (c :: p.1, p.2))

/-- Unescape the quoted identifier part: the sequence must consist of
escaped characters and end exactly at an unescaped closing quote. -/
def unescapeIdChars : List Char → Option (List Char)
  | [] => none
  | ['"'] => some []
  | '\\' :: c :: rest =>
    if c = '"' ∨ c = '\\' then (unescapeIdChars rest).map (c :: ·) else none
  | c :: rest =>
    if c = '"' then none else (unescapeIdChars rest).map (c :: ·)

/-- Modelled from the spec: the native entity-reference parser
(`EntityUid::from_str` / `src.parse::<EntityUid>()` of the external
`cedar_policy` crate) — a type name, the two-colon separator, then the
identifier in quotes with escapes (spec section 4.5). -/
def EntityUid.fromStr (s : String) : Option EntityUid := do
  let (p, r) ← splitAtFirstQuote s.data
  let idChars ← unescapeIdChars r
  match p.reverse with
  | ':' :: ':' :: tyRev =>
    let ty ← EntityTypeName.fromStr (String.mk tyRev.reverse)
    some ⟨ty, ⟨String.mk idChars⟩⟩
  | _ => none

/-- `usize::try_from` on a Java `int`: fails exactly on negative values. -/
def usizeTryFrom (i : Int) : Option Nat :=
  if 0 ≤ i then some i.toNat else none

/-- `isize::try_from` on a Java `int`: succeeds on every 64-bit-range value
(every `i32` in particular), negative values included. -/
def isizeTryFrom (i : Int) : Option Int :=
  if -(2 ^ 63) ≤ i ∧ i < 2 ^ 63 then some i else none

/-- Native formatter configuration (`cedar_policy_formatter::Config`):
unsigned line width, signed indent width. -/
structure Config where
  line_width : Nat
  indent_width : Int
deriving DecidableEq, Repr


/-! ## Typed wrappers (`objects.rs`) -/

/-- `JString::cast` (`impl Object for JString`, objects.rs lines 38-43):
identity check against `java/lang/String`, then wrap. -/
def JStr.cast (obj : JObj) : JniM JStr := do
  assert_is_class obj "java/lang/String"
  pure ⟨obj⟩

/-- Typed wrapper around `com.cedarpolicy.value.EntityTypeName`
(objects.rs lines 47-50). -/
structure JEntityTypeName where
  obj : JObj
  type_name : EntityTypeName
deriving DecidableEq, Repr

namespace JEntityTypeName

/-- `JEntityTypeName::new` (objects.rs lines 54-80): marshal base name and
namespace, reject components containing the two-colon separator, parse the
joined string, then allocate the managed object — the constructor result is
`unwrap`ped. -/
def new (basename : JStr) (ns : JList) : JniM JEntityTypeName := do
  let basename_str ← getString basename
  let ns_vec ← jstr_list_to_rust_vec ns
  let full_type_name := ns_vec ++ [basename_str]
  if full_type_name.any containsTwoColons then
    throwErr (.parseFailure "components of the type name cannot contain colons")
  else
    match EntityTypeName.fromStr (joinComponents full_type_name) with
    | none => throwErr (.parseFailure "entity type name parse error")
    | some type_name => do
      let obj ← expectOk
        (newObject "com/cedarpolicy/value/EntityTypeName" [ns.obj, basename.obj])
        "called Result::unwrap on an Err value"
      pure ⟨obj, type_name⟩

/-- `JEntityTypeName::get_rust_repr` (objects.rs lines 88-90). -/
def get_rust_repr (j : JEntityTypeName) : EntityTypeName :=
  j.type_name

/-- `JEntityTypeName::get_string_repr` (objects.rs lines 83-85). -/
def get_string_repr (j : JEntityTypeName) : String :=
  j.get_rust_repr.toStr

/-- The `for` loop of `JEntityTypeName::try_from`: allocate each namespace
component string and append it to the managed list. -/
def addParts (l : JList) : List String → JniM JList
  | [] => pure l
  | part :: rest => do
    let part_str ← newString part
    let l' ← l.add part_str
    addParts l' rest

/-- `JEntityTypeName::try_from` (objects.rs lines 105-114): allocate the
base-name string and a managed list of the namespace components, then
delegate to `new`. -/
def tryFrom (etype : EntityTypeName) : JniM JEntityTypeName := do
  let basename ← newString etype.basename
  let namespace_array ← JList.newList
  let namespace_array ← addParts namespace_array etype.nsComponents
  new basename namespace_array

/-- `JEntityTypeName::cast` (objects.rs lines 128-147): identity check, then
accessor calls for namespace and base name, marshaling, the same colon check
and parse as `new`. -/
def cast (obj : JObj) : JniM JEntityTypeName := do
  assert_is_class obj "com/cedarpolicy/value/EntityTypeName"
  let namespaceV ← callMethod obj "getNamespace"
  let nsRef ← get_object_ref namespaceV
  let namespace_components ← JList.cast_unchecked nsRef
  let basenameV ← callMethod obj "getBaseName"
  let basenameRef ← get_object_ref basenameV
  let basename ← JStr.cast basenameRef
  let basename_str ← getString basename
  let ns_vec ← jstr_list_to_rust_vec namespace_components
  let full_type_name := ns_vec ++ [basename_str]
  if full_type_name.any containsTwoColons then
    throwErr (.parseFailure "components of the type name cannot contain colons")
  else
    match EntityTypeName.fromStr (joinComponents full_type_name) with
    | none => throwErr (.parseFailure "entity type name parse error")
    | some type_name => pure ⟨obj, type_name⟩

end JEntityTypeName

/-- Typed wrapper representing `java.util.Optional` (objects.rs lines
164-169); the Rust `PhantomData` type parameter is kept as `T`. -/
structure JOptional (T : Type) where
  value : JValue
deriving DecidableEq, Repr

namespace JOptional

/-- `JOptional::empty` (objects.rs lines 173-180): the managed `empty`
factory. -/
def empty (T : Type) : JniM (JOptional T) := do
  let value ← callStaticMethod "java/util/Optional" "empty" []
  pure ⟨value⟩

/-- `JOptional::of` (objects.rs lines 183-194): the managed `of` factory
applied to the value's reference projection (`AsRef<JObject>` becomes the
explicit `toObj`). -/
def of (toObj : T → JObj) (t : T) : JniM (JOptional T) := do
  let value ← callStaticMethod "java/util/Optional" "of" [toObj t]
  pure ⟨value⟩

/-- `JOptional::from_optional` (objects.rs lines 197-202): dispatch a native
`Option` to the two factories. -/
def from_optional (toObj : T → JObj) : Option T → JniM (JOptional T)
  | none => empty T
  | some obj => of toObj obj

end JOptional

/-- `JEntityTypeName::parse` (objects.rs lines 117-125): native parse of the
source string; on success allocate via `try_from` and wrap present, on
native parse failure return the absent optional. -/
def JEntityTypeName.parse (src : String) : JniM (JOptional JEntityTypeName) :=
  match EntityTypeName.fromStr src with
  | some etype => do
    let jetype ← JEntityTypeName.tryFrom etype
    JOptional.of (fun j => j.obj) jetype
  | none => JOptional.empty JEntityTypeName

/-- Typed wrapper around `com.cedarpolicy.value.EntityIdentifier`
(objects.rs lines 218-222). -/
structure JEntityId where
  obj : JObj
  id : EntityId
deriving DecidableEq, Repr

namespace JEntityId

/-- `JEntityId::new` (objects.rs lines 226-240): allocate the managed
object (the constructor result is propagated with `?`), marshal the string,
and wrap it as a native identifier — `EntityId::from_str` is infallible
(its error type is empty; the Rust `match empty {}` has no model case). -/
def new (str : JStr) : JniM JEntityId := do
  let obj ← newObject "com/cedarpolicy/value/EntityIdentifier" [str.obj]
  let src ← getString str
  let id := EntityId.fromStr src
  pure ⟨obj, id⟩

/-- `JEntityId::try_from` (objects.rs lines 243-246): allocate a managed
string holding the raw identifier (an `EntityId` dereferences to its raw
string), then delegate to `new`. -/
def tryFrom (id : EntityId) : JniM JEntityId := do
  let jstring ← newString id.id
  new jstring

/-- `JEntityId::get_rust_repr` (objects.rs lines 249-251). -/
def get_rust_repr (j : JEntityId) : EntityId :=
  j.id

/-- `JEntityId::get_string_repr` (objects.rs lines 254-256): the escaped
canonical form. -/
def get_string_repr (j : JEntityId) : String :=
  j.id.escaped

/-- `JEntityId::cast` (objects.rs lines 259-272): identity check, `getId`
accessor, string marshal, infallible wrap. -/
def cast (obj : JObj) : JniM JEntityId := do
  assert_is_class obj "com/cedarpolicy/value/EntityIdentifier"
  let v ← callMethod obj "getId"
  let id_field ← get_object_ref v
  let jstring_obj ← JStr.cast id_field
  let str ← getString jstring_obj
  pure ⟨obj, EntityId.fromStr str⟩

end JEntityId

/-- Typed wrapper around `com.cedarpolicy.value.EntityUID` (objects.rs
lines 282-284): no native field. -/
structure JEntityUID where
  obj : JObj
deriving DecidableEq, Repr

namespace JEntityUID

/-- `JEntityUID::new` (objects.rs lines 288-302): allocate the managed
composite from the two already-validated sub-wrappers (propagated with `?`). -/
def new (entity_type : JEntityTypeName) (id : JEntityId) : JniM JEntityUID := do
  let obj ← newObject "com/cedarpolicy/value/EntityUID" [entity_type.obj, id.obj]
  pure ⟨obj⟩

/-- `JEntityUID::parse` (objects.rs lines 305-316): native parse of the
source; on success rebuild the sub-wrappers via their `try_from` paths and
the composite, wrapped present; on native parse failure return absent. -/
def parse (src : String) : JniM (JOptional JEntityUID) :=
  match EntityUid.fromStr src with
  | some eid => do
    let id ← JEntityId.tryFrom eid.eid
    let entity_type ← JEntityTypeName.tryFrom eid.ty
    let obj ← new entity_type id
    JOptional.of (fun j => j.obj) obj
  | none => JOptional.empty JEntityUID

/-- `JEntityUID::cast` (objects.rs lines 319-324): identity check only. -/
def cast (obj : JObj) : JniM JEntityUID := do
  assert_is_class obj "com/cedarpolicy/value/EntityUID"
  pure ⟨obj⟩

end JEntityUID

/-- Typed wrapper around `com.cedarpolicy.model.policy.Policy` (objects.rs
lines 334-336). -/
structure JPolicy where
  obj : JObj
deriving DecidableEq, Repr

namespace JPolicy

/-- `JPolicy::new` (objects.rs lines 340-357): allocate the managed Policy
object — the constructor result goes through
`.expect("Failed to create new Policy object")`. -/
def new (policy_string : JStr) (policy_id_string : JStr) : JniM JPolicy := do
  let obj ← expectOk
    (newObject "com/cedarpolicy/model/policy/Policy"
      [policy_string.obj, policy_id_string.obj])
    "Failed to create new Policy object"
  pure ⟨obj⟩

/-- `JPolicy::cast` (objects.rs lines 360-365): identity check only. -/
def cast (obj : JObj) : JniM JPolicy := do
  assert_is_class obj "com/cedarpolicy/model/policy/Policy"
  pure ⟨obj⟩

end JPolicy

/-- Typed wrapper around `com.cedarpolicy.model.formatter.Config`
(objects.rs lines 373-376). -/
structure JFormatterConfig where
  obj : JObj
  formatter_config : Config
deriving DecidableEq, Repr

namespace JFormatterConfig

/-- `JFormatterConfig::get_rust_repr` (objects.rs lines 379-381). -/
def get_rust_repr (j : JFormatterConfig) : Config :=
  j.formatter_config

/-- `JFormatterConfig::cast` (objects.rs lines 390-404): identity check,
`getLineWidth`/`getIndentWidth` accessors, then the fallible integer
conversions (`usize::try_from`, `isize::try_from`). -/
def cast (obj : JObj) : JniM JFormatterConfig := do
  assert_is_class obj "com/cedarpolicy/model/formatter/Config"
  let lineWidthV ← callMethod obj "getLineWidth"
  let line_width_jint ← jvalueInt lineWidthV
  let indentWidthV ← callMethod obj "getIndentWidth"
  let indent_width_jint ← jvalueInt indentWidthV
  match usizeTryFrom line_width_jint with
  | none => throwErr .intConversionFailure
  | some lw =>
    match isizeTryFrom indent_width_jint with
    | none => throwErr .intConversionFailure
    | some iw => pure ⟨obj, ⟨lw, iw⟩⟩

end JFormatterConfig

/-! ## Claim-support definitions -/

/-- `m` always succeeds with value `a` under the never-failing runtime,
whatever invocations happened before. -/
def RunsOk (m : JniM α) (a : α) : Prop :=
  ∀ log, ∃ log', m cleanEnv log = (.ok a, log')

/-- `m` always fails with error `e` under the never-failing runtime,
whatever invocations happened before. -/
def RunsErr (m : JniM α) (e : ConvError) : Prop :=
  ∀ log, ∃ log', m cleanEnv log = (.err e, log')

/-- The six typed wrappers implementing the Cast Protocol. -/
inductive CastKind where
  | typeNameK
  | entityIdK
  | entityUidK
  | policyK
  | formatterConfigK
  | stringK
deriving DecidableEq, Repr

/-- The expected fully-qualified class name each cast checks against. -/
def expectedClass : CastKind → String
  | .typeNameK => "com/cedarpolicy/value/EntityTypeName"
  | .entityIdK => "com/cedarpolicy/value/EntityIdentifier"
  | .entityUidK => "com/cedarpolicy/value/EntityUID"
  | .policyK => "com/cedarpolicy/model/policy/Policy"
  | .formatterConfigK => "com/cedarpolicy/model/formatter/Config"
  | .stringK => "java/lang/String"

/-- Run the cast implementation of the given wrapper kind on a fresh log
under the never-failing runtime, keeping the outcome (payload erased) and
the invocation log. -/
def runCast (k : CastKind) (obj : JObj) : JResult Unit × List JEvent :=
  match k with
  | .typeNameK =>
    let r := JEntityTypeName.cast obj cleanEnv []
    (r.1.toUnit, r.2)
  | .entityIdK =>
    let r := JEntityId.cast obj cleanEnv []
    (r.1.toUnit, r.2)
  | .entityUidK =>
    let r := JEntityUID.cast obj cleanEnv []
    (r.1.toUnit, r.2)
  | .policyK =>
    let r := JPolicy.cast obj cleanEnv []
    (r.1.toUnit, r.2)
  | .formatterConfigK =>
    let r := JFormatterConfig.cast obj cleanEnv []
    (r.1.toUnit, r.2)
  | .stringK =>
    let r := JStr.cast obj cleanEnv []
    (r.1.toUnit, r.2)

/-- Build an entity reference from a type-name wrapper for `NS::T` and an
identifier wrapper for `abc` (spec section 8, composite round-trip). -/
def c8Construct : JniM JEntityUID := do
  let tn ← JEntityTypeName.new ⟨.stringObj "T"⟩ ⟨.listObj ["NS"]⟩
  let idw ← JEntityId.new ⟨.stringObj "abc"⟩
  JEntityUID.new tn idw

/-- The Typed Wrapper invariant for qualified type names: the managed
object has the expected runtime class, and the native field is the
validated decoding of the object's state. -/
def JEntityTypeName.wrapperInv (w : JEntityTypeName) : Prop :=
  runtimeClass w.obj = "com/cedarpolicy/value/EntityTypeName" ∧
  ∃ ns b, w.obj = .entityTypeNameObj ns b ∧
    EntityTypeName.fromStr (joinComponents (ns ++ [b])) = some w.type_name

/-- The Typed Wrapper invariant for identifiers. -/
def JEntityId.wrapperInv (w : JEntityId) : Prop :=
  runtimeClass w.obj = "com/cedarpolicy/value/EntityIdentifier" ∧
  ∃ s, w.obj = .entityIdentifierObj s ∧ w.id = EntityId.fromStr s

/-- The Typed Wrapper invariant for formatter configurations. -/
def JFormatterConfig.wrapperInv (w : JFormatterConfig) : Prop :=
  runtimeClass w.obj = "com/cedarpolicy/model/formatter/Config" ∧
  ∃ lw iw, w.obj = .configObj lw iw ∧
    usizeTryFrom lw = some w.formatter_config.line_width ∧
    isizeTryFrom iw = some w.formatter_config.indent_width

/-! ## Evaluation and inversion lemmas for the run model -/

theorem JniM.bind_def (m : JniM α) (f : α → JniM β) :
    m >>= f = JniM.bindRes m f := rfl

theorem JniM.pure_def (a : α) : (pure a : JniM α) = JniM.pureRes a := rfl

theorem RunsOk.bindOk {m : JniM α} {f : α → JniM β} {a : α} {b : β}
    (h1 : RunsOk m a) (h2 : RunsOk (f a) b) : RunsOk (m >>= f) b := by
  intro log
  obtain ⟨log1, e1⟩ := h1 log
  obtain ⟨log2, e2⟩ := h2 log1
  exact ⟨log2, by simp [JniM.bind_def, JniM.bindRes, e1, e2]⟩

theorem RunsOk.pureOk (a : α) : RunsOk (pure a) a :=
  fun log => ⟨log, rfl⟩

theorem RunsOk.run_fst {m : JniM α} {a : α} (h : RunsOk m a) (log : List JEvent) :
    (m cleanEnv log).1 = .ok a := by
  obtain ⟨log', e⟩ := h log
  simp [e]

theorem RunsOk.bindErr {m : JniM α} {f : α → JniM β} {a : α} {e : ConvError}
    (h1 : RunsOk m a) (h2 : RunsErr (f a) e) : RunsErr (m >>= f) e := by
  intro log
  obtain ⟨log1, e1⟩ := h1 log
  obtain ⟨log2, e2⟩ := h2 log1
  exact ⟨log2, by simp [JniM.bind_def, JniM.bindRes, e1, e2]⟩

theorem throwErr_runsErr (e : ConvError) : RunsErr (throwErr e : JniM α) e :=
  fun log => ⟨log, rfl⟩

theorem RunsErr.runErr_fst {m : JniM α} {e : ConvError} (h : RunsErr m e)
    (log : List JEvent) : (m cleanEnv log).1 = .err e := by
  obtain ⟨log', hr⟩ := h log
  simp [hr]

theorem jniCall_clean (ev : JEvent) (log : List JEvent) :
    jniCall ev cleanEnv log = (.ok (), log ++ [ev]) := by
  simp [jniCall, cleanEnv]

theorem RunsOk.jniCallOk (ev : JEvent) : RunsOk (jniCall ev) () :=
  fun log => ⟨log ++ [ev], jniCall_clean ev log⟩

theorem RunsOk.getStringOk (s : String) : RunsOk (getString ⟨.stringObj s⟩) s := by
  refine (RunsOk.jniCallOk .getStringChars).bindOk ?_
  exact RunsOk.pureOk s

theorem RunsOk.newStringOk (s : String) : RunsOk (newString s) ⟨.stringObj s⟩ := by
  exact (RunsOk.jniCallOk .newString).bindOk (RunsOk.pureOk _)

theorem RunsOk.listMarshalOk (xs : List String) :
    RunsOk (jstr_list_to_rust_vec ⟨.listObj xs⟩) xs :=
  (RunsOk.jniCallOk .listMarshal).bindOk (RunsOk.pureOk _)

theorem RunsOk.listNewOk : RunsOk JList.newList ⟨.listObj []⟩ :=
  (RunsOk.jniCallOk .listNew).bindOk (RunsOk.pureOk _)

theorem RunsOk.listAddOk (xs : List String) (s : String) :
    RunsOk (JList.add ⟨.listObj xs⟩ ⟨.stringObj s⟩) ⟨.listObj (xs ++ [s])⟩ :=
  (RunsOk.jniCallOk .listAdd).bindOk (RunsOk.pureOk _)

theorem RunsOk.newObjectOk (cls : String) (args : List JObj) (o : JObj)
    (h : constructObject cls args = some o) : RunsOk (newObject cls args) o := by
  refine (RunsOk.jniCallOk (.newObject cls)).bindOk ?_
  rw [h]
  exact RunsOk.pureOk o

theorem RunsOk.expectOkOk {m : JniM α} {a : α} (h : RunsOk m a) (msg : String) :
    RunsOk (expectOk m msg) a := by
  intro log
  obtain ⟨log', e⟩ := h log
  exact ⟨log', by simp [expectOk, e]⟩

theorem RunsOk.callMethodOk (obj : JObj) (name : String) (v : JValue)
    (h : dispatchMethod obj name = some v) : RunsOk (callMethod obj name) v := by
  refine (RunsOk.jniCallOk (.callMethod name)).bindOk ?_
  rw [h]
  exact RunsOk.pureOk v

theorem RunsOk.staticEmptyOk :
    RunsOk (callStaticMethod "java/util/Optional" "empty" []) (.objectV .optionalEmptyObj) :=
  (RunsOk.jniCallOk _).bindOk (RunsOk.pureOk _)

theorem RunsOk.staticOfOk (o : JObj) :
    RunsOk (callStaticMethod "java/util/Optional" "of" [o]) (.objectV (.optionalOfObj o)) :=
  (RunsOk.jniCallOk _).bindOk (RunsOk.pureOk _)

theorem RunsOk.getObjectRefOk (o : JObj) : RunsOk (get_object_ref (.objectV o)) o :=
  RunsOk.pureOk o

theorem RunsOk.jvalueIntOk (i : Int) : RunsOk (jvalueInt (.intV i)) i :=
  RunsOk.pureOk i

theorem RunsOk.assertClassOk (obj : JObj) (c : String) (h : runtimeClass obj = c) :
    RunsOk (assert_is_class obj c) () := by
  refine (RunsOk.jniCallOk .getClass).bindOk ?_
  rw [h]
  simp only [if_pos rfl]
  exact RunsOk.pureOk ()

theorem RunsOk.jstrCastOk (s : String) :
    RunsOk (JStr.cast (.stringObj s)) ⟨.stringObj s⟩ :=
  (RunsOk.assertClassOk (.stringObj s) _ rfl).bindOk (RunsOk.pureOk _)

theorem RunsOk.listCastUncheckedOk (o : JObj) :
    RunsOk (JList.cast_unchecked o) ⟨o⟩ :=
  RunsOk.pureOk _

/-! ## Split/join lemmas for the two-colon separator -/

theorem consHead_cons (c : Char) (g : List Char) (gs : List (List Char)) :
    consHead c (g :: gs) = (c :: g) :: gs := rfl

theorem splitOnColons_cons₂ (c₁ c₂ : Char) (rest : List Char) :
    splitOnColons (c₁ :: c₂ :: rest) =
      if c₁ = ':' ∧ c₂ = ':' then [] :: splitOnColons rest
      else consHead c₁ (splitOnColons (c₂ :: rest)) := rfl

theorem unsnoc_concat (l : List α) (a : α) : unsnoc (l ++ [a]) = some (l, a) := by
  induction l with
  | nil => rfl
  | cons x xs ih =>
    cases xs with
    | nil => rfl
    | cons y ys =>
      rw [show unsnoc ((x :: y :: ys) ++ [a])
            = (unsnoc ((y :: ys) ++ [a])).map (fun p => (x :: p.1, p.2)) from rfl, ih]
      rfl

theorem unsnoc_eq_some {l ini : List α} {a : α} (h : unsnoc l = some (ini, a)) :
    l = ini ++ [a] := by
  induction l generalizing ini with
  | nil => simp [unsnoc] at h
  | cons x xs ih =>
    cases xs with
    | nil =>
      simp [unsnoc] at h
      simp [h.1, h.2]
    | cons y ys =>
      rw [show unsnoc (x :: y :: ys) = (unsnoc (y :: ys)).map (fun p => (x :: p.1, p.2)) from rfl]
        at h
      cases hu : unsnoc (y :: ys) with
      | none => rw [hu] at h; simp at h
      | some p =>
        rw [hu] at h
        simp at h
        obtain ⟨rfl, rfl⟩ := h
        simp [ih hu]

theorem splitOnColons_no_colon (g : List Char) (h : ∀ c ∈ g, c ≠ ':') :
    splitOnColons g = [g] := by
  induction g with
  | nil => rfl
  | cons c₁ tail ih =>
    cases tail with
    | nil => rfl
    | cons c₂ rest =>
      have hc₁ : c₁ ≠ ':' := h c₁ (by simp)
      rw [splitOnColons_cons₂]
      rw [if_neg (by simp [hc₁])]
      rw [ih (fun c hc => h c (by simp [hc]))]
      rfl

theorem splitOnColons_append_sep (g rest : List Char) (h : ∀ c ∈ g, c ≠ ':') :
    splitOnColons (g ++ ':' :: ':' :: rest) = g :: splitOnColons rest := by
  induction g with
  | nil =>
    rw [List.nil_append, splitOnColons_cons₂, if_pos ⟨rfl, rfl⟩]
  | cons c g' ih =>
    have hc : c ≠ ':' := h c (by simp)
    have ih' := ih (fun x hx => h x (by simp [hx]))
    cases g' with
    | nil =>
      simp only [List.cons_append, List.nil_append]
      rw [splitOnColons_cons₂, if_neg (by simp [hc])]
      simp only [List.nil_append] at ih'
      rw [ih']
      rfl
    | cons d g'' =>
      simp only [List.cons_append]
      rw [splitOnColons_cons₂, if_neg (by simp [hc])]
      simp only [List.cons_append] at ih'
      rw [ih']
      rfl

theorem splitOnColons_joinColons (gs : List (List Char)) (hne : gs ≠ [])
    (hc : ∀ g ∈ gs, ∀ c ∈ g, c ≠ ':') : splitOnColons (joinColons gs) = gs := by
  induction gs with
  | nil => exact absurd rfl hne
  | cons g tail ih =>
    cases tail with
    | nil =>
      rw [show joinColons [g] = g from rfl]
      exact splitOnColons_no_colon g (hc g (by simp))
    | cons g' gs' =>
      rw [show joinColons (g :: g' :: gs') = g ++ ':' :: ':' :: joinColons (g' :: gs')
        from rfl]
      rw [splitOnColons_append_sep g _ (hc g (by simp))]
      rw [ih (by simp) (fun x hx c hcc => hc x (by simp [hx]) c hcc)]

theorem data_mk (l : List Char) : (String.mk l).data = l := rfl

theorem mk_data (s : String) : String.mk s.data = s := rfl

theorem valid_ident_no_colon {cs : List Char} (h : isValidIdentChars cs = true) :
    ∀ c ∈ cs, c ≠ ':' := by
  cases cs with
  | nil => intro c hc; simp at hc
  | cons c₀ rest =>
    rw [show isValidIdentChars (c₀ :: rest) = (isIdentStart c₀ && rest.all isIdentChar)
      from rfl] at h
    rw [Bool.and_eq_true] at h
    intro c hc
    rcases List.mem_cons.mp hc with rfl | hmem
    · intro hcol
      rw [hcol] at h
      exact absurd h.1 (by decide)
    · intro hcol
      have := List.all_eq_true.mp h.2 c hmem
      rw [hcol] at this
      exact absurd this (by decide)

theorem no_colon_no_double {cs : List Char} (h : ∀ c ∈ cs, c ≠ ':') :
    containsTwoColonsChars cs = false := by
  induction cs with
  | nil => rfl
  | cons c₁ tail ih =>
    cases tail with
    | nil => rfl
    | cons c₂ rest =>
      rw [show containsTwoColonsChars (c₁ :: c₂ :: rest)
            = if c₁ = ':' && c₂ = ':' then true else containsTwoColonsChars (c₂ :: rest)
          from rfl]
      rw [if_neg (by simp [h c₁ (by simp)])]
      exact ih (fun c hc => h c (by simp [hc]))

theorem valid_ident_no_double {s : String} (h : isValidIdentChars s.data = true) :
    containsTwoColons s = false :=
  no_colon_no_double (valid_ident_no_colon h)

/-- A component list whose members are all valid identifiers passes the
source's colon check. -/
theorem valid_comps_any_colon_false {l : List String}
    (h : l.all (fun x => isValidIdentChars x.data) = true) :
    l.any containsTwoColons = false := by
  rw [List.any_eq_false]
  intro x hx
  simp [valid_ident_no_double (List.all_eq_true.mp h x hx)]

theorem allMapEq (l : List α) (f : α → β) (p : β → Bool) :
    (l.map f).all p = l.all (fun x => p (f x)) := by
  induction l with
  | nil => rfl
  | cons x xs ih => simp [List.all_cons, ih]

theorem fromStr_def (s : String) :
    EntityTypeName.fromStr s =
      if (splitOnColons s.data).all isValidIdentChars then
        match unsnoc (splitOnColons s.data) with
        | some (ini, lastC) => some ⟨ini.map String.mk, String.mk lastC⟩
        | none => none
      else none := rfl

/-- Re-parsing the canonical joined form of a type name whose components
are all valid identifiers recovers the type name. -/
theorem fromStr_join_self (t : EntityTypeName)
    (h : (t.nsComponents ++ [t.basename]).all (fun x => isValidIdentChars x.data) = true) :
    EntityTypeName.fromStr (joinComponents (t.nsComponents ++ [t.basename])) = some t := by
  rw [fromStr_def]
  rw [show (joinComponents (t.nsComponents ++ [t.basename])).data
        = joinColons ((t.nsComponents ++ [t.basename]).map String.data) from rfl]
  have hnc : ∀ g ∈ (t.nsComponents ++ [t.basename]).map String.data, ∀ c ∈ g, c ≠ ':' := by
    intro g hg c hc
    rw [List.mem_map] at hg
    obtain ⟨x, hx, rfl⟩ := hg
    exact valid_ident_no_colon (List.all_eq_true.mp h x hx) c hc
  rw [splitOnColons_joinColons _ (by simp) hnc]
  rw [if_pos (by rw [allMapEq]; exact h)]
  rw [List.map_append, show ([t.basename].map String.data) = [t.basename.data] from rfl]
  rw [unsnoc_concat]
  simp only [List.map_map]
  rw [show (String.mk ∘ String.data) = id from funext mk_data]
  rw [List.map_id, mk_data]

/-- Inversion of a successful native type-name parse: all components of the
result are valid identifiers. -/
theorem fromStr_valid {s : String} {t : EntityTypeName}
    (h : EntityTypeName.fromStr s = some t) :
    (t.nsComponents ++ [t.basename]).all (fun x => isValidIdentChars x.data) = true := by
  rw [fromStr_def] at h
  by_cases hall : (splitOnColons s.data).all isValidIdentChars = true
  · rw [if_pos hall] at h
    cases hu : unsnoc (splitOnColons s.data) with
    | none => rw [hu] at h; simp at h
    | some p =>
      obtain ⟨ini, lastC⟩ := p
      rw [hu] at h
      simp only [Option.some.injEq] at h
      have hsplit := unsnoc_eq_some hu
      rw [hsplit] at hall
      rw [← h]
      simp only [List.all_append, Bool.and_eq_true] at hall ⊢
      constructor
      · rw [allMapEq]
        exact hall.1
      · simpa using hall.2
  · rw [if_neg hall] at h
    simp at h

/-! ## Success-path evaluation of the wrapper operations -/

theorem new_runsOk (ns : List String) (b : String) (t : EntityTypeName)
    (hcol : (ns ++ [b]).any containsTwoColons = false)
    (hparse : EntityTypeName.fromStr (joinComponents (ns ++ [b])) = some t) :
    RunsOk (JEntityTypeName.new ⟨.stringObj b⟩ ⟨.listObj ns⟩)
      ⟨.entityTypeNameObj ns b, t⟩ := by
  refine (RunsOk.getStringOk b).bindOk ?_
  refine (RunsOk.listMarshalOk ns).bindOk ?_
  simp only [JEntityTypeName.new, hcol, hparse]
  exact (RunsOk.expectOkOk
    (RunsOk.newObjectOk "com/cedarpolicy/value/EntityTypeName"
      [.listObj ns, .stringObj b] (.entityTypeNameObj ns b) rfl) _).bindOk
    (RunsOk.pureOk _)

theorem cast_runsOk (ns : List String) (b : String) (t : EntityTypeName)
    (hcol : (ns ++ [b]).any containsTwoColons = false)
    (hparse : EntityTypeName.fromStr (joinComponents (ns ++ [b])) = some t) :
    RunsOk (JEntityTypeName.cast (.entityTypeNameObj ns b))
      ⟨.entityTypeNameObj ns b, t⟩ := by
  refine (RunsOk.assertClassOk _ _ rfl).bindOk ?_
  refine (RunsOk.callMethodOk (.entityTypeNameObj ns b) "getNamespace"
    (.objectV (.listObj ns)) rfl).bindOk ?_
  refine (RunsOk.getObjectRefOk (.listObj ns)).bindOk ?_
  refine (RunsOk.listCastUncheckedOk _).bindOk ?_
  refine (RunsOk.callMethodOk (.entityTypeNameObj ns b) "getBaseName"
    (.objectV (.stringObj b)) rfl).bindOk ?_
  refine (RunsOk.getObjectRefOk (.stringObj b)).bindOk ?_
  refine (RunsOk.jstrCastOk b).bindOk ?_
  refine (RunsOk.getStringOk b).bindOk ?_
  refine (RunsOk.listMarshalOk ns).bindOk ?_
  simp only [JEntityTypeName.cast, hcol, hparse]
  exact RunsOk.pureOk _

theorem addParts_runsOk (parts : List String) (xs : List String) :
    RunsOk (JEntityTypeName.addParts ⟨.listObj xs⟩ parts) ⟨.listObj (xs ++ parts)⟩ := by
  induction parts generalizing xs with
  | nil =>
    rw [List.append_nil]
    exact RunsOk.pureOk _
  | cons p rest ih =>
    refine (RunsOk.newStringOk p).bindOk ?_
    refine (RunsOk.listAddOk xs p).bindOk ?_
    rw [show xs ++ p :: rest = (xs ++ [p]) ++ rest by simp]
    exact ih (xs ++ [p])

theorem tryFrom_runsOk (t : EntityTypeName)
    (hvalid : (t.nsComponents ++ [t.basename]).all (fun x => isValidIdentChars x.data) = true) :
    RunsOk (JEntityTypeName.tryFrom t) ⟨.entityTypeNameObj t.nsComponents t.basename, t⟩ := by
  refine (RunsOk.newStringOk t.basename).bindOk ?_
  refine RunsOk.listNewOk.bindOk ?_
  refine (addParts_runsOk t.nsComponents []).bindOk ?_
  rw [show ([] : List String) ++ t.nsComponents = t.nsComponents from List.nil_append _]
  exact new_runsOk t.nsComponents t.basename t
    (valid_comps_any_colon_false hvalid) (fromStr_join_self t hvalid)

theorem optional_empty_runsOk (T : Type) :
    RunsOk (JOptional.empty T) ⟨.objectV .optionalEmptyObj⟩ :=
  RunsOk.staticEmptyOk.bindOk (RunsOk.pureOk _)

theorem optional_of_runsOk (toObj : T → JObj) (t : T) :
    RunsOk (JOptional.of toObj t) ⟨.objectV (.optionalOfObj (toObj t))⟩ :=
  (RunsOk.staticOfOk (toObj t)).bindOk (RunsOk.pureOk _)

theorem idNew_runsOk (s : String) :
    RunsOk (JEntityId.new ⟨.stringObj s⟩) ⟨.entityIdentifierObj s, ⟨s⟩⟩ := by
  refine (RunsOk.newObjectOk "com/cedarpolicy/value/EntityIdentifier"
    [.stringObj s] (.entityIdentifierObj s) rfl).bindOk ?_
  exact (RunsOk.getStringOk s).bindOk (RunsOk.pureOk _)

theorem idTryFrom_runsOk (e : EntityId) :
    RunsOk (JEntityId.tryFrom e) ⟨.entityIdentifierObj e.id, e⟩ := by
  refine (RunsOk.newStringOk e.id).bindOk ?_
  exact idNew_runsOk e.id

theorem idCast_runsOk (s : String) :
    RunsOk (JEntityId.cast (.entityIdentifierObj s)) ⟨.entityIdentifierObj s, ⟨s⟩⟩ := by
  refine (RunsOk.assertClassOk _ _ rfl).bindOk ?_
  refine (RunsOk.callMethodOk (.entityIdentifierObj s) "getId"
    (.objectV (.stringObj s)) rfl).bindOk ?_
  refine (RunsOk.getObjectRefOk (.stringObj s)).bindOk ?_
  refine (RunsOk.jstrCastOk s).bindOk ?_
  exact (RunsOk.getStringOk s).bindOk (RunsOk.pureOk _)

theorem uidNew_runsOk (ns : List String) (b : String) (t : EntityTypeName) (s : String)
    (e : EntityId) :
    RunsOk (JEntityUID.new ⟨.entityTypeNameObj ns b, t⟩ ⟨.entityIdentifierObj s, e⟩)
      ⟨.entityUIDObj ns b s⟩ := by
  refine (RunsOk.newObjectOk "com/cedarpolicy/value/EntityUID"
    [.entityTypeNameObj ns b, .entityIdentifierObj s] (.entityUIDObj ns b s) rfl).bindOk ?_
  exact RunsOk.pureOk _

/-! ## Inversion lemmas: what a successful run implies -/

theorem bindRes_ok {m : JniM α} {f : α → JniM β} {b : β} {env : EnvOracle}
    {log log₂ : List JEvent} (h : (m >>= f) env log = (.ok b, log₂)) :
    ∃ a log₁, m env log = (.ok a, log₁) ∧ f a env log₁ = (.ok b, log₂) := by
  rw [JniM.bind_def, JniM.bindRes] at h
  rcases hm : m env log with ⟨r, log₁⟩
  rw [hm] at h
  cases r with
  | ok a => exact ⟨a, log₁, rfl, h⟩
  | err e => simp at h
  | aborted msg => simp at h

theorem pureRes_ok {a b : α} {env : EnvOracle} {log log' : List JEvent}
    (h : (pure a : JniM α) env log = (.ok b, log')) : a = b ∧ log' = log := by
  rw [JniM.pure_def, JniM.pureRes] at h
  rw [Prod.mk.injEq] at h
  exact ⟨by cases h.1; rfl, h.2.symm⟩

theorem throwErr_not_ok {e : ConvError} {a : α} {env : EnvOracle} {log log' : List JEvent}
    (h : (throwErr e : JniM α) env log = (.ok a, log')) : False := by
  rw [throwErr] at h
  simp at h

theorem expectOk_ok {m : JniM α} {msg : String} {a : α} {env : EnvOracle}
    {log log' : List JEvent} (h : expectOk m msg env log = (.ok a, log')) :
    m env log = (.ok a, log') := by
  rw [expectOk] at h
  rcases hm : m env log with ⟨r, log₁⟩
  rw [hm] at h
  cases r with
  | ok x => rw [Prod.mk.injEq] at h; cases h.1; rw [h.2]
  | err e => simp at h
  | aborted msg' => simp at h

theorem callMethod_ok {obj : JObj} {name : String} {v : JValue} {env : EnvOracle}
    {log log' : List JEvent} (h : callMethod obj name env log = (.ok v, log')) :
    dispatchMethod obj name = some v := by
  obtain ⟨u, log₁, _, h₂⟩ := bindRes_ok h
  cases hd : dispatchMethod obj name with
  | some w =>
    rw [hd] at h₂
    exact congrArg some (pureRes_ok h₂).1
  | none =>
    rw [hd] at h₂
    exact absurd h₂ (fun hh => throwErr_not_ok hh)

theorem newObject_ok {cls : String} {args : List JObj} {o : JObj} {env : EnvOracle}
    {log log' : List JEvent} (h : newObject cls args env log = (.ok o, log')) :
    constructObject cls args = some o := by
  obtain ⟨u, log₁, _, h₂⟩ := bindRes_ok h
  cases hc : constructObject cls args with
  | some w =>
    rw [hc] at h₂
    exact congrArg some (pureRes_ok h₂).1
  | none =>
    rw [hc] at h₂
    exact absurd h₂ (fun hh => throwErr_not_ok hh)

theorem getString_ok {s : JStr} {str : String} {env : EnvOracle}
    {log log' : List JEvent} (h : getString s env log = (.ok str, log')) :
    s.obj = .stringObj str := by
  obtain ⟨u, log₁, _, h₂⟩ := bindRes_ok h
  cases hs : s.obj with
  | stringObj x =>
    rw [hs] at h₂
    exact congrArg JObj.stringObj (pureRes_ok h₂).1
  | listObj xs => rw [hs] at h₂; exact absurd h₂ (fun hh => throwErr_not_ok hh)
  | entityTypeNameObj ns b => rw [hs] at h₂; exact absurd h₂ (fun hh => throwErr_not_ok hh)
  | entityIdentifierObj i => rw [hs] at h₂; exact absurd h₂ (fun hh => throwErr_not_ok hh)
  | entityUIDObj ns b i => rw [hs] at h₂; exact absurd h₂ (fun hh => throwErr_not_ok hh)
  | policyObj p pid => rw [hs] at h₂; exact absurd h₂ (fun hh => throwErr_not_ok hh)
  | configObj lw iw => rw [hs] at h₂; exact absurd h₂ (fun hh => throwErr_not_ok hh)
  | optionalEmptyObj => rw [hs] at h₂; exact absurd h₂ (fun hh => throwErr_not_ok hh)
  | optionalOfObj o => rw [hs] at h₂; exact absurd h₂ (fun hh => throwErr_not_ok hh)

theorem listMarshal_ok {l : JList} {xs : List String} {env : EnvOracle}
    {log log' : List JEvent} (h : jstr_list_to_rust_vec l env log = (.ok xs, log')) :
    l.obj = .listObj xs := by
  obtain ⟨u, log₁, _, h₂⟩ := bindRes_ok h
  cases hs : l.obj with
  | listObj ys =>
    rw [hs] at h₂
    exact congrArg JObj.listObj (pureRes_ok h₂).1
  | stringObj x => rw [hs] at h₂; exact absurd h₂ (fun hh => throwErr_not_ok hh)
  | entityTypeNameObj ns b => rw [hs] at h₂; exact absurd h₂ (fun hh => throwErr_not_ok hh)
  | entityIdentifierObj i => rw [hs] at h₂; exact absurd h₂ (fun hh => throwErr_not_ok hh)
  | entityUIDObj ns b i => rw [hs] at h₂; exact absurd h₂ (fun hh => throwErr_not_ok hh)
  | policyObj p pid => rw [hs] at h₂; exact absurd h₂ (fun hh => throwErr_not_ok hh)
  | configObj lw iw => rw [hs] at h₂; exact absurd h₂ (fun hh => throwErr_not_ok hh)
  | optionalEmptyObj => rw [hs] at h₂; exact absurd h₂ (fun hh => throwErr_not_ok hh)
  | optionalOfObj o => rw [hs] at h₂; exact absurd h₂ (fun hh => throwErr_not_ok hh)

theorem assert_is_class_ok {obj : JObj} {c : String} {u : Unit} {env : EnvOracle}
    {log log' : List JEvent} (h : assert_is_class obj c env log = (.ok u, log')) :
    runtimeClass obj = c := by
  obtain ⟨u', log₁, _, h₂⟩ := bindRes_ok h
  by_cases hc : runtimeClass obj = c
  · exact hc
  · rw [if_neg hc] at h₂
    exact absurd h₂ (fun hh => throwErr_not_ok hh)

theorem get_object_ref_ok {v : JValue} {o : JObj} {env : EnvOracle}
    {log log' : List JEvent} (h : get_object_ref v env log = (.ok o, log')) :
    v = .objectV o := by
  cases v with
  | objectV w =>
    rw [get_object_ref] at h
    exact congrArg JValue.objectV (pureRes_ok h).1
  | intV i =>
    rw [get_object_ref] at h
    exact absurd h (fun hh => throwErr_not_ok hh)

theorem jvalueInt_ok {v : JValue} {i : Int} {env : EnvOracle}
    {log log' : List JEvent} (h : jvalueInt v env log = (.ok i, log')) :
    v = .intV i := by
  cases v with
  | intV j =>
    rw [jvalueInt] at h
    exact congrArg JValue.intV (pureRes_ok h).1
  | objectV o =>
    rw [jvalueInt] at h
    exact absurd h (fun hh => throwErr_not_ok hh)

theorem jstrCast_ok {obj : JObj} {s : JStr} {env : EnvOracle}
    {log log' : List JEvent} (h : JStr.cast obj env log = (.ok s, log')) :
    s.obj = obj := by
  obtain ⟨u, log₁, _, h₂⟩ := bindRes_ok h
  exact congrArg JStr.obj (pureRes_ok h₂).1.symm

/-! ## Error-path evaluation lemmas -/

theorem bindRes_err {m : JniM α} {f : α → JniM β} {e : ConvError} {env : EnvOracle}
    {log l' : List JEvent} (h : m env log = (.err e, l')) :
    (m >>= f) env log = (.err e, l') := by
  rw [JniM.bind_def, JniM.bindRes, h]

theorem throwErr_run (e : ConvError) (env : EnvOracle) (log : List JEvent) :
    (throwErr e : JniM α) env log = (.err e, log) := rfl

/-- A cast whose identity check fails stops right there: the run returns the
identity-mismatch error with only the class query in the log. -/
theorem cast_mismatch_run {α : Type} (obj : JObj) (c : String) (f : Unit → JniM α)
    (hne : runtimeClass obj ≠ c) :
    (assert_is_class obj c >>= f) cleanEnv [] =
      (.err (.identityMismatch c (runtimeClass obj)), [.getClass]) := by
  have h1 : assert_is_class obj c cleanEnv [] =
      (.err (.identityMismatch c (runtimeClass obj)), [.getClass]) := by
    rw [assert_is_class, JniM.bind_def, JniM.bindRes, jniCall_clean, if_neg hne]
    rfl
  exact bindRes_err h1

theorem getString_clean (s : String) (log : List JEvent) :
    getString ⟨.stringObj s⟩ cleanEnv log = (.ok s, log ++ [.getStringChars]) := by
  rw [getString, JniM.bind_def, JniM.bindRes, jniCall_clean]
  rfl

theorem listMarshal_clean (xs : List String) (log : List JEvent) :
    jstr_list_to_rust_vec ⟨.listObj xs⟩ cleanEnv log = (.ok xs, log ++ [.listMarshal]) := by
  rw [jstr_list_to_rust_vec, JniM.bind_def, JniM.bindRes, jniCall_clean]
  rfl

theorem assert_clean (obj : JObj) (c : String) (h : runtimeClass obj = c)
    (log : List JEvent) :
    assert_is_class obj c cleanEnv log = (.ok (), log ++ [.getClass]) := by
  rw [assert_is_class, JniM.bind_def, JniM.bindRes, jniCall_clean, if_pos h]
  rfl

theorem callMethod_clean (obj : JObj) (name : String) (v : JValue)
    (h : dispatchMethod obj name = some v) (log : List JEvent) :
    callMethod obj name cleanEnv log = (.ok v, log ++ [.callMethod name]) := by
  rw [callMethod, JniM.bind_def, JniM.bindRes, jniCall_clean, h]
  rfl

/-! ## Never-abort and failure-propagation lemmas -/

/-- C1: for every typed wrapper implementing the cast protocol
(`JEntityTypeName`, `JEntityId`, `JEntityUID`, `JPolicy`,
`JFormatterConfig`, `JString`), calling `cast` on a reference whose runtime
class differs from the wrapper's expected fully-qualified class name
returns an identity-mismatch error naming expected and actual classes, and
performs zero field-accessor method invocations. -/
theorem claim_C1_cast_identity (k : CastKind) (obj : JObj)
    (hne : runtimeClass obj ≠ expectedClass k) :
    (runCast k obj).1 = .err (.identityMismatch (expectedClass k) (runtimeClass obj)) ∧
    accessorCalls (runCast k obj).2 = 0 := by
  cases k <;>
    simp only [runCast, expectedClass,
      JEntityTypeName.cast, JEntityId.cast, JEntityUID.cast, JPolicy.cast,
      JFormatterConfig.cast, JStr.cast] at hne ⊢ <;>
    rw [cast_mismatch_run _ _ _ hne] <;>
    exact ⟨rfl, rfl⟩

/-- Witness for C1: casting a `Policy` object through the five other
wrappers fails with identity-mismatch and no accessor call; casting a
`String` through the `Policy` wrapper likewise. -/
theorem claim_C1_cast_identity_witness :
    ((runCast .typeNameK (.policyObj "p" "i")).1
        = .err (.identityMismatch "com/cedarpolicy/value/EntityTypeName"
            "com/cedarpolicy/model/policy/Policy")
      ∧ accessorCalls (runCast .typeNameK (.policyObj "p" "i")).2 = 0) ∧
    ((runCast .entityIdK (.policyObj "p" "i")).1
        = .err (.identityMismatch "com/cedarpolicy/value/EntityIdentifier"
            "com/cedarpolicy/model/policy/Policy")
      ∧ accessorCalls (runCast .entityIdK (.policyObj "p" "i")).2 = 0) ∧
    ((runCast .entityUidK (.policyObj "p" "i")).1
        = .err (.identityMismatch "com/cedarpolicy/value/EntityUID"
            "com/cedarpolicy/model/policy/Policy")
      ∧ accessorCalls (runCast .entityUidK (.policyObj "p" "i")).2 = 0) ∧
    ((runCast .formatterConfigK (.policyObj "p" "i")).1
        = .err (.identityMismatch "com/cedarpolicy/model/formatter/Config"
            "com/cedarpolicy/model/policy/Policy")
      ∧ accessorCalls (runCast .formatterConfigK (.policyObj "p" "i")).2 = 0) ∧
    ((runCast .stringK (.policyObj "p" "i")).1
        = .err (.identityMismatch "java/lang/String"
            "com/cedarpolicy/model/policy/Policy")
      ∧ accessorCalls (runCast .stringK (.policyObj "p" "i")).2 = 0) ∧
    ((runCast .policyK (.stringObj "x")).1
        = .err (.identityMismatch "com/cedarpolicy/model/policy/Policy"
            "java/lang/String")
      ∧ accessorCalls (runCast .policyK (.stringObj "x")).2 = 0) :=
  ⟨claim_C1_cast_identity .typeNameK (.policyObj "p" "i") (by decide),
   claim_C1_cast_identity .entityIdK (.policyObj "p" "i") (by decide),
   claim_C1_cast_identity .entityUidK (.policyObj "p" "i") (by decide),
   claim_C1_cast_identity .formatterConfigK (.policyObj "p" "i") (by decide),
   claim_C1_cast_identity .stringK (.policyObj "p" "i") (by decide),
   claim_C1_cast_identity .policyK (.stringObj "x") (by decide)⟩

/-- C3: whenever a namespace component or the base name contains the
two-colon separator, `JEntityTypeName::new` returns a parse-failure error,
and no managed-side allocation happened (the constructor call never ran). -/
theorem claim_C3_reject_colon_components (ns : List String) (b : String)
    (h : (ns ++ [b]).any containsTwoColons = true) :
    (JEntityTypeName.new ⟨.stringObj b⟩ ⟨.listObj ns⟩ cleanEnv []).1
        = .err (.parseFailure "components of the type name cannot contain colons") ∧
    allocations (JEntityTypeName.new ⟨.stringObj b⟩ ⟨.listObj ns⟩ cleanEnv []).2 = 0 := by
  have hrun : JEntityTypeName.new ⟨.stringObj b⟩ ⟨.listObj ns⟩ cleanEnv []
      = (.err (.parseFailure "components of the type name cannot contain colons"),
         [.getStringChars, .listMarshal]) := by
    simp [JEntityTypeName.new, JniM.bind_def, JniM.bindRes, getString_clean,
      listMarshal_clean, throwErr, h]
    rw [if_pos (by simpa using h)]
    rfl
  rw [hrun]
  exact ⟨rfl, rfl⟩

/-- Witness for C3: a namespace component `A::B` containing the separator
is rejected with parse-failure, without any allocation. -/
theorem claim_C3_reject_colon_components_witness :
    (JEntityTypeName.new ⟨.stringObj "C"⟩ ⟨.listObj ["A::B"]⟩ cleanEnv []).1
        = .err (.parseFailure "components of the type name cannot contain colons") ∧
    allocations (JEntityTypeName.new ⟨.stringObj "C"⟩ ⟨.listObj ["A::B"]⟩ cleanEnv []).2
        = 0 :=
  claim_C3_reject_colon_components ["A::B"] "C" (by decide)

/-- C5: the native-option bridge `JOptional::from_optional` is the exact
dispatch to the two factories: on `None` it is `JOptional::empty`, on
`Some w` it is `JOptional::of w` — as functions of the runtime, so every
observation (outcome and invocation log) coincides. -/
theorem claim_C5_optional_bridge (T : Type) (toObj : T → JObj) (w : T) :
    JOptional.from_optional toObj (none : Option T) = JOptional.empty T ∧
    JOptional.from_optional toObj (some w) = JOptional.of toObj w :=
  ⟨rfl, rfl⟩

/-- C2: for every namespace list and base name with no component containing
the two-colon separator, when the canonically-joined string parses to a
native value `t`, constructing the wrapper and then decoding it via `cast`
succeeds and carries exactly `t` — construct and decode agree with parsing
the joined string directly. -/
theorem claim_C2_construct_decode_roundtrip (ns : List String) (b : String)
    (t : EntityTypeName)
    (hcol : (ns ++ [b]).any containsTwoColons = false)
    (hparse : EntityTypeName.fromStr (joinComponents (ns ++ [b])) = some t) :
    ((do
        let w ← JEntityTypeName.new ⟨.stringObj b⟩ ⟨.listObj ns⟩
        JEntityTypeName.cast w.obj : JniM JEntityTypeName) cleanEnv []).1
      = .ok ⟨.entityTypeNameObj ns b, t⟩ := by
  refine RunsOk.run_fst ?_ []
  exact (new_runsOk ns b t hcol hparse).bindOk (cast_runsOk ns b t hcol hparse)

/-- Witness for C2: `(["Foo"], "Bar")` constructs and decodes back to the
parse of `"Foo::Bar"`. -/
theorem claim_C2_construct_decode_roundtrip_witness :
    ((do
        let w ← JEntityTypeName.new ⟨.stringObj "Bar"⟩ ⟨.listObj ["Foo"]⟩
        JEntityTypeName.cast w.obj : JniM JEntityTypeName) cleanEnv []).1
      = .ok ⟨.entityTypeNameObj ["Foo"] "Bar", ⟨["Foo"], "Bar"⟩⟩ :=
  claim_C2_construct_decode_roundtrip ["Foo"] "Bar" ⟨["Foo"], "Bar"⟩
    (by decide) (by decide)

/-- C6: identifier construction and decode never fail at the native level —
for every input string, `JEntityId::new` and `JEntityId::cast` succeed
under a non-failing runtime, wrapping the raw string — and the escaped
string representation can differ from the raw input. -/
theorem claim_C6_identifier_infallible :
    (∀ (s : String) (log : List JEvent),
      (JEntityId.new ⟨.stringObj s⟩ cleanEnv log).1
        = .ok ⟨.entityIdentifierObj s, EntityId.fromStr s⟩) ∧
    (∀ (s : String) (log : List JEvent),
      (JEntityId.cast (.entityIdentifierObj s) cleanEnv log).1
        = .ok ⟨.entityIdentifierObj s, EntityId.fromStr s⟩) ∧
    (∃ s : String, (EntityId.fromStr s).escaped ≠ s) := by
  refine ⟨?_, ?_, ⟨"a\"b", by decide⟩⟩
  · intro s log
    exact (idNew_runsOk s).run_fst log
  · intro s log
    exact (idCast_runsOk s).run_fst log

/-- C8: constructing an entity reference from a type-name wrapper for
`NS::T` and an identifier wrapper for `abc` yields the composite managed
object; the sub-wrappers carry the native values for `NS::T` and `abc`;
the composite's canonical string form is `NS::T::"abc"` (identifier
escaped), and re-parsing that string reproduces a native composite value
equal to the original (the pair the sub-wrappers carry) and an equal
managed composite object. -/
theorem claim_C8_composite_roundtrip :
    (c8Construct cleanEnv []).1 = .ok ⟨.entityUIDObj ["NS"] "T" "abc"⟩ ∧
    ((do
        let tn ← JEntityTypeName.new ⟨.stringObj "T"⟩ ⟨.listObj ["NS"]⟩
        let idw ← JEntityId.new ⟨.stringObj "abc"⟩
        pure (tn.get_rust_repr, idw.get_rust_repr)
        : JniM (EntityTypeName × EntityId)) cleanEnv []).1
      = .ok (⟨["NS"], "T"⟩, ⟨"abc"⟩) ∧
    EntityUid.fromStr "NS::T::\"abc\"" = some ⟨⟨["NS"], "T"⟩, ⟨"abc"⟩⟩ ∧
    (⟨⟨["NS"], "T"⟩, ⟨"abc"⟩⟩ : EntityUid).toStr = "NS::T::\"abc\"" ∧
    (JEntityUID.parse "NS::T::\"abc\"" cleanEnv []).1
      = .ok ⟨.objectV (.optionalOfObj (.entityUIDObj ["NS"] "T" "abc"))⟩ := by
  refine ⟨by decide, by decide, by decide, by decide, by decide⟩

/-- C10: casting a formatter configuration whose `getLineWidth` returns a
negative value fails (the conversion to the unsigned native line width is
checked), while any indent width in the signed native range — negative
values included — is accepted. -/
theorem claim_C10_formatter_width_conversion :
    (∀ (lw iw : Int) (log : List JEvent), lw < 0 →
      (JFormatterConfig.cast (.configObj lw iw) cleanEnv log).1
        = .err .intConversionFailure) ∧
    (∀ (lw iw : Int) (log : List JEvent), 0 ≤ lw → -(2 ^ 63) ≤ iw → iw < 2 ^ 63 →
      (JFormatterConfig.cast (.configObj lw iw) cleanEnv log).1
        = .ok ⟨.configObj lw iw, ⟨lw.toNat, iw⟩⟩) := by
  constructor
  · intro lw iw log hneg
    have h1 : usizeTryFrom lw = none := by
      rw [usizeTryFrom, if_neg (not_le.mpr hneg)]
    refine RunsErr.runErr_fst ?_ log
    refine (RunsOk.assertClassOk _ _ rfl).bindErr ?_
    refine (RunsOk.callMethodOk (.configObj lw iw) "getLineWidth"
      (.intV lw) rfl).bindErr ?_
    refine (RunsOk.jvalueIntOk lw).bindErr ?_
    refine (RunsOk.callMethodOk (.configObj lw iw) "getIndentWidth"
      (.intV iw) rfl).bindErr ?_
    refine (RunsOk.jvalueIntOk iw).bindErr ?_
    rw [h1]
    exact throwErr_runsErr _
  · intro lw iw log h0 h1 h2
    refine RunsOk.run_fst ?_ log
    refine (RunsOk.assertClassOk _ _ rfl).bindOk ?_
    refine (RunsOk.callMethodOk (.configObj lw iw) "getLineWidth"
      (.intV lw) rfl).bindOk ?_
    refine (RunsOk.jvalueIntOk lw).bindOk ?_
    refine (RunsOk.callMethodOk (.configObj lw iw) "getIndentWidth"
      (.intV iw) rfl).bindOk ?_
    refine (RunsOk.jvalueIntOk iw).bindOk ?_
    rw [show usizeTryFrom lw = some lw.toNat from by rw [usizeTryFrom, if_pos h0]]
    rw [show isizeTryFrom iw = some iw from by rw [isizeTryFrom, if_pos ⟨h1, h2⟩]]
    exact RunsOk.pureOk _

/-- Witness for C10: line width `-3` is rejected; line width `10` with the
negative indent width `-5` is accepted. -/
theorem claim_C10_formatter_width_conversion_witness :
    (JFormatterConfig.cast (.configObj (-3) (-5)) cleanEnv []).1
        = .err .intConversionFailure ∧
    (JFormatterConfig.cast (.configObj 10 (-5)) cleanEnv []).1
        = .ok ⟨.configObj 10 (-5), ⟨10, -5⟩⟩ :=
  ⟨claim_C10_formatter_width_conversion.1 (-3) (-5) [] (by decide),
   claim_C10_formatter_width_conversion.2 10 (-5) [] (by decide) (by decide) (by decide)⟩

/-- A successful native entity-reference parse yields a type name whose
components are all valid identifiers. -/
theorem uid_fromStr_ty_valid {s : String} {u : EntityUid}
    (h : EntityUid.fromStr s = some u) :
    (u.ty.nsComponents ++ [u.ty.basename]).all (fun x => isValidIdentChars x.data)
      = true := by
  unfold EntityUid.fromStr at h
  cases hq : splitAtFirstQuote s.data with
  | none => rw [hq] at h; simp at h
  | some pr =>
    obtain ⟨p, r⟩ := pr
    rw [hq] at h
    simp only [Option.bind_eq_bind, Option.some_bind] at h
    cases hu2 : unescapeIdChars r with
    | none => rw [hu2] at h; simp at h
    | some idChars =>
      rw [hu2] at h
      simp only [Option.some_bind] at h
      split at h
      · rename_i tyRev heq
        cases hf : EntityTypeName.fromStr (String.mk tyRev.reverse) with
        | none => rw [hf] at h; simp at h
        | some ty =>
          rw [hf] at h
          simp only [Option.some_bind, Option.some.injEq] at h
          rw [← h]
          exact fromStr_valid hf
      · simp at h

/-- C4: parsing a string the native parser rejects returns an absent
Optional (not an error), for both the qualified-type-name and the
entity-reference parse; parsing a string the native parser accepts returns
a present Optional whose object carries the parsed components (for
`"Foo::Bar"`: namespace `["Foo"]`, base name `"Bar"`). -/
theorem claim_C4_parse_absent_duality :
    (∀ s : String, EntityTypeName.fromStr s = none →
      (JEntityTypeName.parse s cleanEnv []).1 = .ok ⟨.objectV .optionalEmptyObj⟩) ∧
    (∀ (s : String) (t : EntityTypeName), EntityTypeName.fromStr s = some t →
      (JEntityTypeName.parse s cleanEnv []).1
        = .ok ⟨.objectV (.optionalOfObj (.entityTypeNameObj t.nsComponents t.basename))⟩) ∧
    (∀ s : String, EntityUid.fromStr s = none →
      (JEntityUID.parse s cleanEnv []).1 = .ok ⟨.objectV .optionalEmptyObj⟩) ∧
    (∀ (s : String) (u : EntityUid), EntityUid.fromStr s = some u →
      (JEntityUID.parse s cleanEnv []).1
        = .ok ⟨.objectV (.optionalOfObj
            (.entityUIDObj u.ty.nsComponents u.ty.basename u.eid.id))⟩) := by
  refine ⟨?_, ?_, ?_, ?_⟩
  · intro s h
    simp only [JEntityTypeName.parse, h]
    exact (optional_empty_runsOk _).run_fst []
  · intro s t h
    simp only [JEntityTypeName.parse, h]
    refine RunsOk.run_fst ?_ []
    exact (tryFrom_runsOk t (fromStr_valid h)).bindOk (optional_of_runsOk _ _)
  · intro s h
    simp only [JEntityUID.parse, h]
    exact (optional_empty_runsOk _).run_fst []
  · intro s u h
    simp only [JEntityUID.parse, h]
    refine RunsOk.run_fst ?_ []
    refine (idTryFrom_runsOk u.eid).bindOk ?_
    refine (tryFrom_runsOk u.ty (uid_fromStr_ty_valid h)).bindOk ?_
    exact (uidNew_runsOk u.ty.nsComponents u.ty.basename u.ty u.eid.id u.eid).bindOk
      (optional_of_runsOk _ _)

/-- Witness for C4: `"Foo::Bar"` parses present with namespace `["Foo"]`
and base name `"Bar"`; `"not a valid name"` parses absent; likewise for the
entity-reference parse with `NS::T::"abc"` present and `"xyz"` absent. -/
theorem claim_C4_parse_absent_duality_witness :
    (JEntityTypeName.parse "not a valid name" cleanEnv []).1
        = .ok ⟨.objectV .optionalEmptyObj⟩ ∧
    (JEntityTypeName.parse "Foo::Bar" cleanEnv []).1
        = .ok ⟨.objectV (.optionalOfObj (.entityTypeNameObj ["Foo"] "Bar"))⟩ ∧
    (JEntityUID.parse "xyz" cleanEnv []).1 = .ok ⟨.objectV .optionalEmptyObj⟩ ∧
    (JEntityUID.parse "NS::T::\"abc\"" cleanEnv []).1
        = .ok ⟨.objectV (.optionalOfObj (.entityUIDObj ["NS"] "T" "abc"))⟩ :=
  ⟨claim_C4_parse_absent_duality.1 "not a valid name" (by decide),
   claim_C4_parse_absent_duality.2.1 "Foo::Bar" ⟨["Foo"], "Bar"⟩ (by decide),
   claim_C4_parse_absent_duality.2.2.1 "xyz" (by decide),
   claim_C4_parse_absent_duality.2.2.2 "NS::T::\"abc\"" ⟨⟨["NS"], "T"⟩, ⟨"abc"⟩⟩
     (by decide)⟩

theorem class_etn {obj : JObj}
    (h : runtimeClass obj = "com/cedarpolicy/value/EntityTypeName") :
    ∃ ns b, obj = .entityTypeNameObj ns b := by
  cases obj <;> simp [runtimeClass] at h <;> exact ⟨_, _, rfl⟩

theorem class_eid {obj : JObj}
    (h : runtimeClass obj = "com/cedarpolicy/value/EntityIdentifier") :
    ∃ s, obj = .entityIdentifierObj s := by
  cases obj <;> simp [runtimeClass] at h <;> exact ⟨_, rfl⟩

theorem class_config {obj : JObj}
    (h : runtimeClass obj = "com/cedarpolicy/model/formatter/Config") :
    ∃ lw iw, obj = .configObj lw iw := by
  cases obj <;> simp [runtimeClass] at h <;> exact ⟨_, _, rfl⟩

theorem etn_new_inv {basename : JStr} {ns : JList} {env : EnvOracle}
    {log log' : List JEvent} {w : JEntityTypeName}
    (h : JEntityTypeName.new basename ns env log = (.ok w, log')) :
    w.wrapperInv := by
  simp only [JEntityTypeName.new] at h
  obtain ⟨bs, log1, hgs, h⟩ := bindRes_ok h
  obtain ⟨nv, log2, hlm, h⟩ := bindRes_ok h
  by_cases hcol : (nv ++ [bs]).any containsTwoColons = true
  · rw [if_pos hcol] at h
    exact absurd h (fun hh => throwErr_not_ok hh)
  · rw [if_neg hcol] at h
    cases hp : EntityTypeName.fromStr (joinComponents (nv ++ [bs])) with
    | none =>
      rw [hp] at h
      exact absurd h (fun hh => throwErr_not_ok hh)
    | some t =>
      rw [hp] at h
      obtain ⟨obj, log3, hexp, h⟩ := bindRes_ok h
      have hno := newObject_ok (expectOk_ok hexp)
      obtain ⟨hw, -⟩ := pureRes_ok h
      rw [getString_ok hgs, listMarshal_ok hlm] at hno
      rw [show constructObject "com/cedarpolicy/value/EntityTypeName"
            [.listObj nv, .stringObj bs] = some (.entityTypeNameObj nv bs)
          from rfl] at hno
      have hobj : obj = .entityTypeNameObj nv bs := (Option.some_inj.mp hno).symm
      rw [← hw]
      refine ⟨by rw [hobj]; rfl, nv, bs, hobj, hp⟩

theorem etn_cast_inv {obj : JObj} {env : EnvOracle} {log log' : List JEvent}
    {w : JEntityTypeName}
    (h : JEntityTypeName.cast obj env log = (.ok w, log')) : w.wrapperInv := by
  simp only [JEntityTypeName.cast] at h
  obtain ⟨u, log1, hac, h⟩ := bindRes_ok h
  obtain ⟨ns, b, rfl⟩ := class_etn (assert_is_class_ok hac)
  obtain ⟨nsV, log2, hcm1, h⟩ := bindRes_ok h
  have hv1 : nsV = .objectV (.listObj ns) := by
    have hd := callMethod_ok hcm1
    rw [show dispatchMethod (JObj.entityTypeNameObj ns b) "getNamespace"
          = some (.objectV (.listObj ns)) from rfl] at hd
    exact (Option.some_inj.mp hd).symm
  subst hv1
  obtain ⟨nsRef, log3, hgor, h⟩ := bindRes_ok h
  have hnsRef : nsRef = .listObj ns := by
    have := get_object_ref_ok hgor
    exact (JValue.objectV.inj this).symm
  subst hnsRef
  obtain ⟨comps, log4, hcu, h⟩ := bindRes_ok h
  have hcomps : comps = ⟨.listObj ns⟩ := ((pureRes_ok hcu).1).symm
  subst hcomps
  obtain ⟨bV, log5, hcm2, h⟩ := bindRes_ok h
  have hv2 : bV = .objectV (.stringObj b) := by
    have hd := callMethod_ok hcm2
    rw [show dispatchMethod (JObj.entityTypeNameObj ns b) "getBaseName"
          = some (.objectV (.stringObj b)) from rfl] at hd
    exact (Option.some_inj.mp hd).symm
  subst hv2
  obtain ⟨bRef, log6, hgor2, h⟩ := bindRes_ok h
  have hbRef : bRef = .stringObj b := by
    have := get_object_ref_ok hgor2
    exact (JValue.objectV.inj this).symm
  subst hbRef
  obtain ⟨bjs, log7, hjc, h⟩ := bindRes_ok h
  have hbjs := jstrCast_ok hjc
  obtain ⟨bs, log8, hgs, h⟩ := bindRes_ok h
  have hbs : bs = b := by
    have := getString_ok hgs
    rw [hbjs] at this
    exact (JObj.stringObj.inj this).symm
  obtain ⟨nv, log9, hlm, h⟩ := bindRes_ok h
  have hnv : nv = ns := by
    have := listMarshal_ok hlm
    exact (JObj.listObj.inj this).symm
  rw [hbs, hnv] at h
  by_cases hcol : (ns ++ [b]).any containsTwoColons = true
  · rw [if_pos hcol] at h
    exact absurd h (fun hh => throwErr_not_ok hh)
  · rw [if_neg hcol] at h
    cases hp : EntityTypeName.fromStr (joinComponents (ns ++ [b])) with
    | none =>
      rw [hp] at h
      exact absurd h (fun hh => throwErr_not_ok hh)
    | some t =>
      rw [hp] at h
      obtain ⟨hw, -⟩ := pureRes_ok h
      rw [← hw]
      exact ⟨rfl, ns, b, rfl, hp⟩

theorem etn_tryFrom_inv {t : EntityTypeName} {env : EnvOracle}
    {log log' : List JEvent} {w : JEntityTypeName}
    (h : JEntityTypeName.tryFrom t env log = (.ok w, log')) : w.wrapperInv := by
  simp only [JEntityTypeName.tryFrom] at h
  obtain ⟨bjs, log1, _, h⟩ := bindRes_ok h
  obtain ⟨l0, log2, _, h⟩ := bindRes_ok h
  obtain ⟨l1, log3, _, h⟩ := bindRes_ok h
  exact etn_new_inv h

theorem eid_new_inv {str : JStr} {env : EnvOracle} {log log' : List JEvent}
    {w : JEntityId} (h : JEntityId.new str env log = (.ok w, log')) :
    w.wrapperInv := by
  simp only [JEntityId.new] at h
  obtain ⟨obj, log1, hno, h⟩ := bindRes_ok h
  obtain ⟨src, log2, hgs, h⟩ := bindRes_ok h
  have hcon := newObject_ok hno
  rw [getString_ok hgs] at hcon
  rw [show constructObject "com/cedarpolicy/value/EntityIdentifier" [.stringObj src]
        = some (.entityIdentifierObj src) from rfl] at hcon
  have hobj : obj = .entityIdentifierObj src := (Option.some_inj.mp hcon).symm
  obtain ⟨hw, -⟩ := pureRes_ok h
  rw [← hw]
  exact ⟨by rw [hobj]; rfl, src, hobj, rfl⟩

theorem eid_tryFrom_inv {e : EntityId} {env : EnvOracle} {log log' : List JEvent}
    {w : JEntityId} (h : JEntityId.tryFrom e env log = (.ok w, log')) :
    w.wrapperInv := by
  simp only [JEntityId.tryFrom] at h
  obtain ⟨js, log1, _, h⟩ := bindRes_ok h
  exact eid_new_inv h

theorem eid_cast_inv {obj : JObj} {env : EnvOracle} {log log' : List JEvent}
    {w : JEntityId} (h : JEntityId.cast obj env log = (.ok w, log')) :
    w.wrapperInv := by
  simp only [JEntityId.cast] at h
  obtain ⟨u, log1, hac, h⟩ := bindRes_ok h
  obtain ⟨s0, rfl⟩ := class_eid (assert_is_class_ok hac)
  obtain ⟨v, log2, hcm, h⟩ := bindRes_ok h
  have hv : v = .objectV (.stringObj s0) := by
    have hd := callMethod_ok hcm
    rw [show dispatchMethod (JObj.entityIdentifierObj s0) "getId"
          = some (.objectV (.stringObj s0)) from rfl] at hd
    exact (Option.some_inj.mp hd).symm
  subst hv
  obtain ⟨sRef, log3, hgor, h⟩ := bindRes_ok h
  have hsRef : sRef = .stringObj s0 := by
    have := get_object_ref_ok hgor
    exact (JValue.objectV.inj this).symm
  subst hsRef
  obtain ⟨js, log4, hjc, h⟩ := bindRes_ok h
  have hjs := jstrCast_ok hjc
  obtain ⟨str, log5, hgs, h⟩ := bindRes_ok h
  have hstr : str = s0 := by
    have := getString_ok hgs
    rw [hjs] at this
    exact (JObj.stringObj.inj this).symm
  rw [hstr] at h
  obtain ⟨hw, -⟩ := pureRes_ok h
  rw [← hw]
  exact ⟨rfl, s0, rfl, rfl⟩

theorem uid_new_class {tn : JEntityTypeName} {idw : JEntityId} {env : EnvOracle}
    {log log' : List JEvent} {w : JEntityUID}
    (htn : tn.wrapperInv) (hid : idw.wrapperInv)
    (h : JEntityUID.new tn idw env log = (.ok w, log')) :
    runtimeClass w.obj = "com/cedarpolicy/value/EntityUID" := by
  simp only [JEntityUID.new] at h
  obtain ⟨obj, log1, hno, h⟩ := bindRes_ok h
  obtain ⟨ns, b, hobj1, -⟩ := htn.2
  obtain ⟨s, hobj2, -⟩ := hid.2
  have hcon := newObject_ok hno
  rw [hobj1, hobj2] at hcon
  rw [show constructObject "com/cedarpolicy/value/EntityUID"
        [.entityTypeNameObj ns b, .entityIdentifierObj s]
        = some (.entityUIDObj ns b s) from rfl] at hcon
  obtain ⟨hw, -⟩ := pureRes_ok h
  rw [← hw, ← Option.some_inj.mp hcon]
  rfl

theorem uid_cast_class {obj : JObj} {env : EnvOracle} {log log' : List JEvent}
    {w : JEntityUID} (h : JEntityUID.cast obj env log = (.ok w, log')) :
    runtimeClass w.obj = "com/cedarpolicy/value/EntityUID" := by
  simp only [JEntityUID.cast] at h
  obtain ⟨u, log1, hac, h⟩ := bindRes_ok h
  obtain ⟨hw, -⟩ := pureRes_ok h
  rw [← hw]
  exact assert_is_class_ok hac

theorem policy_cast_class {obj : JObj} {env : EnvOracle} {log log' : List JEvent}
    {w : JPolicy} (h : JPolicy.cast obj env log = (.ok w, log')) :
    runtimeClass w.obj = "com/cedarpolicy/model/policy/Policy" := by
  simp only [JPolicy.cast] at h
  obtain ⟨u, log1, hac, h⟩ := bindRes_ok h
  obtain ⟨hw, -⟩ := pureRes_ok h
  rw [← hw]
  exact assert_is_class_ok hac

theorem config_cast_inv {obj : JObj} {env : EnvOracle} {log log' : List JEvent}
    {w : JFormatterConfig} (h : JFormatterConfig.cast obj env log = (.ok w, log')) :
    w.wrapperInv := by
  simp only [JFormatterConfig.cast] at h
  obtain ⟨u, log1, hac, h⟩ := bindRes_ok h
  obtain ⟨lw, iw, rfl⟩ := class_config (assert_is_class_ok hac)
  obtain ⟨v1, log2, hcm1, h⟩ := bindRes_ok h
  have hv1 : v1 = .intV lw := by
    have hd := callMethod_ok hcm1
    rw [show dispatchMethod (JObj.configObj lw iw) "getLineWidth"
          = some (.intV lw) from rfl] at hd
    exact (Option.some_inj.mp hd).symm
  subst hv1
  obtain ⟨i1, log3, hji1, h⟩ := bindRes_ok h
  have hi1 : i1 = lw := (JValue.intV.inj (jvalueInt_ok hji1)).symm
  obtain ⟨v2, log4, hcm2, h⟩ := bindRes_ok h
  have hv2 : v2 = .intV iw := by
    have hd := callMethod_ok hcm2
    rw [show dispatchMethod (JObj.configObj lw iw) "getIndentWidth"
          = some (.intV iw) from rfl] at hd
    exact (Option.some_inj.mp hd).symm
  subst hv2
  obtain ⟨i2, log5, hji2, h⟩ := bindRes_ok h
  have hi2 : i2 = iw := (JValue.intV.inj (jvalueInt_ok hji2)).symm
  rw [hi1, hi2] at h
  cases hu : usizeTryFrom lw with
  | none =>
    rw [hu] at h
    exact absurd h (fun hh => throwErr_not_ok hh)
  | some n =>
    rw [hu] at h
    cases hs : isizeTryFrom iw with
    | none =>
      rw [hs] at h
      exact absurd h (fun hh => throwErr_not_ok hh)
    | some m =>
      rw [hs] at h
      obtain ⟨hw, -⟩ := pureRes_ok h
      rw [← hw]
      exact ⟨rfl, lw, iw, rfl, hu, hs⟩

theorem constructPolicy_shape {a b o : JObj}
    (h : constructObject "com/cedarpolicy/model/policy/Policy" [a, b] = some o) :
    runtimeClass o = "com/cedarpolicy/model/policy/Policy" := by
  cases a <;> cases b <;>
    first
      | (rw [← Option.some_inj.mp h]; rfl)
      | exact absurd h (by simp [constructObject])

theorem policy_new_class {ps pis : JStr} {env : EnvOracle} {log log' : List JEvent}
    {w : JPolicy} (h : JPolicy.new ps pis env log = (.ok w, log')) :
    runtimeClass w.obj = "com/cedarpolicy/model/policy/Policy" := by
  simp only [JPolicy.new] at h
  obtain ⟨obj, log1, hexp, h⟩ := bindRes_ok h
  have hcon := newObject_ok (expectOk_ok hexp)
  obtain ⟨hw, -⟩ := pureRes_ok h
  rw [← hw]
  exact constructPolicy_shape hcon

theorem jstr_cast_class {obj : JObj} {env : EnvOracle} {log log' : List JEvent}
    {w : JStr} (h : JStr.cast obj env log = (.ok w, log')) :
    runtimeClass w.obj = "java/lang/String" := by
  simp only [JStr.cast] at h
  obtain ⟨u, log1, hac, h⟩ := bindRes_ok h
  obtain ⟨hw, -⟩ := pureRes_ok h
  rw [← hw]
  exact assert_is_class_ok hac

theorem staticEmpty_ok {env : EnvOracle} {log log' : List JEvent} {v : JValue}
    (h : callStaticMethod "java/util/Optional" "empty" [] env log = (.ok v, log')) :
    v = .objectV .optionalEmptyObj := by
  obtain ⟨u, log₁, -, h₂⟩ := bindRes_ok h
  exact ((pureRes_ok h₂).1).symm

theorem staticOf_ok {o : JObj} {env : EnvOracle} {log log' : List JEvent} {v : JValue}
    (h : callStaticMethod "java/util/Optional" "of" [o] env log = (.ok v, log')) :
    v = .objectV (.optionalOfObj o) := by
  obtain ⟨u, log₁, -, h₂⟩ := bindRes_ok h
  exact ((pureRes_ok h₂).1).symm

theorem opt_empty_ok {T : Type} {env : EnvOracle} {log log' : List JEvent}
    {r : JOptional T} (h : JOptional.empty T env log = (.ok r, log')) :
    r.value = .objectV .optionalEmptyObj := by
  simp only [JOptional.empty] at h
  obtain ⟨v, log₁, hcs, h₂⟩ := bindRes_ok h
  obtain ⟨hr, -⟩ := pureRes_ok h₂
  rw [← hr]
  exact staticEmpty_ok hcs

theorem opt_of_ok {T : Type} {toObj : T → JObj} {t : T} {env : EnvOracle}
    {log log' : List JEvent} {r : JOptional T}
    (h : JOptional.of toObj t env log = (.ok r, log')) :
    r.value = .objectV (.optionalOfObj (toObj t)) := by
  simp only [JOptional.of] at h
  obtain ⟨v, log₁, hcs, h₂⟩ := bindRes_ok h
  obtain ⟨hr, -⟩ := pureRes_ok h₂
  rw [← hr]
  exact staticOf_ok hcs

theorem etn_parse_inv {s : String} {env : EnvOracle} {log log' : List JEvent}
    {r : JOptional JEntityTypeName}
    (h : JEntityTypeName.parse s env log = (.ok r, log')) :
    r.value = .objectV .optionalEmptyObj ∨
    ∃ w : JEntityTypeName, w.wrapperInv ∧ r.value = .objectV (.optionalOfObj w.obj) := by
  simp only [JEntityTypeName.parse] at h
  cases hp : EntityTypeName.fromStr s with
  | none =>
    rw [hp] at h
    exact Or.inl (opt_empty_ok h)
  | some t =>
    rw [hp] at h
    obtain ⟨jet, log₁, htf, h₂⟩ := bindRes_ok h
    exact Or.inr ⟨jet, etn_tryFrom_inv htf, opt_of_ok h₂⟩

theorem uid_parse_inv {s : String} {env : EnvOracle} {log log' : List JEvent}
    {r : JOptional JEntityUID}
    (h : JEntityUID.parse s env log = (.ok r, log')) :
    r.value = .objectV .optionalEmptyObj ∨
    ∃ o : JObj, runtimeClass o = "com/cedarpolicy/value/EntityUID" ∧
      r.value = .objectV (.optionalOfObj o) := by
  simp only [JEntityUID.parse] at h
  cases hp : EntityUid.fromStr s with
  | none =>
    rw [hp] at h
    exact Or.inl (opt_empty_ok h)
  | some u =>
    rw [hp] at h
    obtain ⟨idw, log₁, hid, h⟩ := bindRes_ok h
    obtain ⟨tn, log₂, htn, h⟩ := bindRes_ok h
    obtain ⟨uo, log₃, hnew, h⟩ := bindRes_ok h
    exact Or.inr ⟨uo.obj,
      uid_new_class (etn_tryFrom_inv htn) (eid_tryFrom_inv hid) hnew,
      opt_of_ok h⟩

/-- C9: every operation producing a typed wrapper (construct, try_from,
decode/cast, and the wrapper a successful parse places into the present
optional) establishes the wrapper invariant: the managed object's runtime
class matches the expected class, and the native fields carried (the
`EntityTypeName` of `JEntityTypeName`, the `EntityId` of `JEntityId`, the
`Config` of `JFormatterConfig`) are the successfully-validated decoding of
the object's state at construction time — under any runtime behaviour, a
wrapper whose native projection failed validation cannot exist.  Covers
all six wrapper types: `JEntityTypeName`, `JEntityId`, `JEntityUID`,
`JPolicy` (both `new` and `cast`), `JFormatterConfig`, and `JString`. -/
theorem claim_C9_wrapper_invariant :
    (∀ (basename : JStr) (ns : JList) (env : EnvOracle) (log log' : List JEvent)
        (w : JEntityTypeName),
      JEntityTypeName.new basename ns env log = (.ok w, log') → w.wrapperInv) ∧
    (∀ (t : EntityTypeName) (env : EnvOracle) (log log' : List JEvent)
        (w : JEntityTypeName),
      JEntityTypeName.tryFrom t env log = (.ok w, log') → w.wrapperInv) ∧
    (∀ (obj : JObj) (env : EnvOracle) (log log' : List JEvent) (w : JEntityTypeName),
      JEntityTypeName.cast obj env log = (.ok w, log') → w.wrapperInv) ∧
    (∀ (str : JStr) (env : EnvOracle) (log log' : List JEvent) (w : JEntityId),
      JEntityId.new str env log = (.ok w, log') → w.wrapperInv) ∧
    (∀ (e : EntityId) (env : EnvOracle) (log log' : List JEvent) (w : JEntityId),
      JEntityId.tryFrom e env log = (.ok w, log') → w.wrapperInv) ∧
    (∀ (obj : JObj) (env : EnvOracle) (log log' : List JEvent) (w : JEntityId),
      JEntityId.cast obj env log = (.ok w, log') → w.wrapperInv) ∧
    (∀ (tn : JEntityTypeName) (idw : JEntityId) (env : EnvOracle)
        (log log' : List JEvent) (w : JEntityUID),
      tn.wrapperInv → idw.wrapperInv →
      JEntityUID.new tn idw env log = (.ok w, log') →
      runtimeClass w.obj = "com/cedarpolicy/value/EntityUID") ∧
    (∀ (obj : JObj) (env : EnvOracle) (log log' : List JEvent) (w : JEntityUID),
      JEntityUID.cast obj env log = (.ok w, log') →
      runtimeClass w.obj = "com/cedarpolicy/value/EntityUID") ∧
    (∀ (obj : JObj) (env : EnvOracle) (log log' : List JEvent) (w : JPolicy),
      JPolicy.cast obj env log = (.ok w, log') →
      runtimeClass w.obj = "com/cedarpolicy/model/policy/Policy") ∧
    (∀ (obj : JObj) (env : EnvOracle) (log log' : List JEvent) (w : JFormatterConfig),
      JFormatterConfig.cast obj env log = (.ok w, log') → w.wrapperInv) ∧
    (∀ (ps pis : JStr) (env : EnvOracle) (log log' : List JEvent) (w : JPolicy),
      JPolicy.new ps pis env log = (.ok w, log') →
      runtimeClass w.obj = "com/cedarpolicy/model/policy/Policy") ∧
    (∀ (obj : JObj) (env : EnvOracle) (log log' : List JEvent) (w : JStr),
      JStr.cast obj env log = (.ok w, log') →
      runtimeClass w.obj = "java/lang/String") ∧
    (∀ (s : String) (env : EnvOracle) (log log' : List JEvent)
        (r : JOptional JEntityTypeName),
      JEntityTypeName.parse s env log = (.ok r, log') →
      r.value = .objectV .optionalEmptyObj ∨
      ∃ w : JEntityTypeName, w.wrapperInv ∧
        r.value = .objectV (.optionalOfObj w.obj)) ∧
    (∀ (s : String) (env : EnvOracle) (log log' : List JEvent)
        (r : JOptional JEntityUID),
      JEntityUID.parse s env log = (.ok r, log') →
      r.value = .objectV .optionalEmptyObj ∨
      ∃ o : JObj, runtimeClass o = "com/cedarpolicy/value/EntityUID" ∧
        r.value = .objectV (.optionalOfObj o)) :=
  ⟨fun _ _ _ _ _ _ h => etn_new_inv h,
   fun _ _ _ _ _ h => etn_tryFrom_inv h,
   fun _ _ _ _ _ h => etn_cast_inv h,
   fun _ _ _ _ _ h => eid_new_inv h,
   fun _ _ _ _ _ h => eid_tryFrom_inv h,
   fun _ _ _ _ _ h => eid_cast_inv h,
   fun _ _ _ _ _ _ htn hid h => uid_new_class htn hid h,
   fun _ _ _ _ _ h => uid_cast_class h,
   fun _ _ _ _ _ h => policy_cast_class h,
   fun _ _ _ _ _ h => config_cast_inv h,
   fun _ _ _ _ _ _ h => policy_new_class h,
   fun _ _ _ _ _ h => jstr_cast_class h,
   fun _ _ _ _ _ h => etn_parse_inv h,
   fun _ _ _ _ _ h => uid_parse_inv h⟩

/-- Witness for C9: concrete runs of each producing operation — including
`JPolicy::new`, `JString::cast` and the two parse operations — yield
wrappers satisfying the invariant. -/
theorem claim_C9_wrapper_invariant_witness :
    (⟨.entityTypeNameObj ["A"] "B", ⟨["A"], "B"⟩⟩ : JEntityTypeName).wrapperInv ∧
    (⟨.entityIdentifierObj "x", ⟨"x"⟩⟩ : JEntityId).wrapperInv ∧
    runtimeClass (⟨.entityUIDObj ["A"] "B" "x"⟩ : JEntityUID).obj
        = "com/cedarpolicy/value/EntityUID" ∧
    runtimeClass (⟨.policyObj "p" "i"⟩ : JPolicy).obj
        = "com/cedarpolicy/model/policy/Policy" ∧
    (⟨.configObj 10 (-5), ⟨10, -5⟩⟩ : JFormatterConfig).wrapperInv ∧
    runtimeClass (⟨.stringObj "x"⟩ : JStr).obj = "java/lang/String" ∧
    ((⟨.objectV (.optionalOfObj (.entityTypeNameObj ["Foo"] "Bar"))⟩
          : JOptional JEntityTypeName).value = .objectV .optionalEmptyObj ∨
      ∃ w : JEntityTypeName, w.wrapperInv ∧
        (⟨.objectV (.optionalOfObj (.entityTypeNameObj ["Foo"] "Bar"))⟩
          : JOptional JEntityTypeName).value = .objectV (.optionalOfObj w.obj)) ∧
    ((⟨.objectV (.optionalOfObj (.entityUIDObj ["NS"] "T" "abc"))⟩
          : JOptional JEntityUID).value = .objectV .optionalEmptyObj ∨
      ∃ o : JObj, runtimeClass o = "com/cedarpolicy/value/EntityUID" ∧
        (⟨.objectV (.optionalOfObj (.entityUIDObj ["NS"] "T" "abc"))⟩
          : JOptional JEntityUID).value = .objectV (.optionalOfObj o)) := by
  have h1 := claim_C9_wrapper_invariant.1 ⟨.stringObj "B"⟩ ⟨.listObj ["A"]⟩ cleanEnv []
    [.getStringChars, .listMarshal, .newObject "com/cedarpolicy/value/EntityTypeName"]
    ⟨.entityTypeNameObj ["A"] "B", ⟨["A"], "B"⟩⟩ (by decide)
  have h2 := claim_C9_wrapper_invariant.2.1 ⟨["A"], "B"⟩ cleanEnv []
    [.newString, .listNew, .newString, .listAdd, .getStringChars, .listMarshal,
     .newObject "com/cedarpolicy/value/EntityTypeName"]
    ⟨.entityTypeNameObj ["A"] "B", ⟨["A"], "B"⟩⟩ (by decide)
  have h3 := claim_C9_wrapper_invariant.2.2.1 (.entityTypeNameObj ["A"] "B") cleanEnv []
    [.getClass, .callMethod "getNamespace", .callMethod "getBaseName", .getClass,
     .getStringChars, .listMarshal]
    ⟨.entityTypeNameObj ["A"] "B", ⟨["A"], "B"⟩⟩ (by decide)
  have h4 := claim_C9_wrapper_invariant.2.2.2.1 ⟨.stringObj "x"⟩ cleanEnv []
    [.newObject "com/cedarpolicy/value/EntityIdentifier", .getStringChars]
    ⟨.entityIdentifierObj "x", ⟨"x"⟩⟩ (by decide)
  have h5 := claim_C9_wrapper_invariant.2.2.2.2.1 ⟨"x"⟩ cleanEnv []
    [.newString, .newObject "com/cedarpolicy/value/EntityIdentifier", .getStringChars]
    ⟨.entityIdentifierObj "x", ⟨"x"⟩⟩ (by decide)
  have h6 := claim_C9_wrapper_invariant.2.2.2.2.2.1 (.entityIdentifierObj "x") cleanEnv []
    [.getClass, .callMethod "getId", .getClass, .getStringChars]
    ⟨.entityIdentifierObj "x", ⟨"x"⟩⟩ (by decide)
  have h7 := claim_C9_wrapper_invariant.2.2.2.2.2.2.1
    ⟨.entityTypeNameObj ["A"] "B", ⟨["A"], "B"⟩⟩ ⟨.entityIdentifierObj "x", ⟨"x"⟩⟩
    cleanEnv [] [.newObject "com/cedarpolicy/value/EntityUID"]
    ⟨.entityUIDObj ["A"] "B" "x"⟩ h1 h4 (by decide)
  have h8 := claim_C9_wrapper_invariant.2.2.2.2.2.2.2.1 (.entityUIDObj ["A"] "B" "x")
    cleanEnv [] [.getClass] ⟨.entityUIDObj ["A"] "B" "x"⟩ (by decide)
  have h9 := claim_C9_wrapper_invariant.2.2.2.2.2.2.2.2.1 (.policyObj "p" "i")
    cleanEnv [] [.getClass] ⟨.policyObj "p" "i"⟩ (by decide)
  have h10 := claim_C9_wrapper_invariant.2.2.2.2.2.2.2.2.2.1 (.configObj 10 (-5))
    cleanEnv [] [.getClass, .callMethod "getLineWidth", .callMethod "getIndentWidth"]
    ⟨.configObj 10 (-5), ⟨10, -5⟩⟩ (by decide)
  have h11 := claim_C9_wrapper_invariant.2.2.2.2.2.2.2.2.2.2.1
    ⟨.stringObj "p"⟩ ⟨.stringObj "i"⟩ cleanEnv []
    [.newObject "com/cedarpolicy/model/policy/Policy"] ⟨.policyObj "p" "i"⟩ (by decide)
  have h12 := claim_C9_wrapper_invariant.2.2.2.2.2.2.2.2.2.2.2.1 (.stringObj "x")
    cleanEnv [] [.getClass] ⟨.stringObj "x"⟩ (by decide)
  have h13 := claim_C9_wrapper_invariant.2.2.2.2.2.2.2.2.2.2.2.2.1 "Foo::Bar"
    cleanEnv []
    [.newString, .listNew, .newString, .listAdd, .getStringChars, .listMarshal,
     .newObject "com/cedarpolicy/value/EntityTypeName",
     .callStaticMethod "java/util/Optional" "of"]
    ⟨.objectV (.optionalOfObj (.entityTypeNameObj ["Foo"] "Bar"))⟩ (by decide)
  have h14 := claim_C9_wrapper_invariant.2.2.2.2.2.2.2.2.2.2.2.2.2 "NS::T::\"abc\""
    cleanEnv []
    [.newString, .newObject "com/cedarpolicy/value/EntityIdentifier", .getStringChars,
     .newString, .listNew, .newString, .listAdd, .getStringChars, .listMarshal,
     .newObject "com/cedarpolicy/value/EntityTypeName",
     .newObject "com/cedarpolicy/value/EntityUID",
     .callStaticMethod "java/util/Optional" "of"]
    ⟨.objectV (.optionalOfObj (.entityUIDObj ["NS"] "T" "abc"))⟩ (by decide)
  exact ⟨h3, h6, h8, h11, h10, h12, h13, h14⟩
